import Mathlib

/-!
# Verification of the note draft-posting scripts

Shallow embedding of `scripts/note_draft_poster.py` and
`scripts/note_draft_poster_selenium.py`.

Strings are modelled as `List Char`.  Every Python `re.sub` / `re.findall`
pass used by the two `markdown_to_html` functions is realised as an
executable left-to-right scanner: at each position a `ScanStep` either
reports a match (returning the replacement text together with the suffix
after the match, mirroring how `re.sub` resumes after a match) or reports
no match, in which case the scanner keeps the current character and moves
one position to the right.  The scanners use explicit fuel (one unit per
scanned position) so that all definitions are structurally recursive and
kernel-evaluable; a step that matches always consumes at least one input
character, so fuel equal to the input length suffices, which is proved
below (`scanGo_fuel`).
-/

set_option maxHeartbeats 1000000

namespace NotePoster

abbrev Chars := List Char

/-- A substitution step: given the text from the current position onward,
either `some (out, rest)` (a match starts here, replaced by `out`, the scan
resumes at `rest`) or `none` (no match at this position). -/
def ScanStep : Type := Chars → Option (Chars × Chars)

/-- Left-to-right, non-overlapping substitution scan (the semantics of
`re.sub` for the concrete patterns used by the scripts). -/
def scanGo (step : ScanStep) : Nat → Chars → Chars
  | 0, cs => cs
  | _ + 1, [] => []
  | fuel + 1, c :: cs =>
    match step (c :: cs) with
    | some (out, rest) => out ++ scanGo step fuel rest
    | none => c :: scanGo step fuel cs

/-- A substitution pass with the canonical fuel (the input length). -/
def scanSub (step : ScanStep) (cs : Chars) : Chars :=
  scanGo step cs.length cs

/-- The same pass with surplus fuel; used to state that the canonical fuel
budget suffices (totality of each pass). -/
def scanSubK (extra : Nat) (step : ScanStep) (cs : Chars) : Chars :=
  scanGo step (cs.length + extra) cs

/-- Left-to-right, non-overlapping match collection (the semantics of
`re.findall` for a pattern without capture groups: `out` is the whole
matched substring). -/
def findAllGo (step : ScanStep) : Nat → Chars → List Chars
  | 0, _ => []
  | _ + 1, [] => []
  | fuel + 1, c :: cs =>
    match step (c :: cs) with
    | some (m, rest) => m :: findAllGo step fuel rest
    | none => findAllGo step fuel cs

/-- `re.findall` with the canonical fuel. -/
def findAll (step : ScanStep) (cs : Chars) : List Chars :=
  findAllGo step cs.length cs

/-- `re.findall` with surplus fuel. -/
def findAllK (extra : Nat) (step : ScanStep) (cs : Chars) : List Chars :=
  findAllGo step (cs.length + extra) cs

/-- Every match consumes at least one input character. -/
def StepShrinks (step : ScanStep) : Prop :=
  ∀ cs out rest, step cs = some (out, rest) → rest.length < cs.length

theorem scanGo_cons_some {step : ScanStep} {c : Char} {cs out rest : Chars}
    (h : step (c :: cs) = some (out, rest)) (fuel : Nat) :
    scanGo step (fuel + 1) (c :: cs) = out ++ scanGo step fuel rest := by
  simp [scanGo, h]

theorem scanGo_cons_none {step : ScanStep} {c : Char} {cs : Chars}
    (h : step (c :: cs) = none) (fuel : Nat) :
    scanGo step (fuel + 1) (c :: cs) = c :: scanGo step fuel cs := by
  simp [scanGo, h]

theorem findAllGo_cons_some {step : ScanStep} {c : Char} {cs m rest : Chars}
    (h : step (c :: cs) = some (m, rest)) (fuel : Nat) :
    findAllGo step (fuel + 1) (c :: cs) = m :: findAllGo step fuel rest := by
  simp [findAllGo, h]

theorem findAllGo_cons_none {step : ScanStep} {c : Char} {cs : Chars}
    (h : step (c :: cs) = none) (fuel : Nat) :
    findAllGo step (fuel + 1) (c :: cs) = findAllGo step fuel cs := by
  simp [findAllGo, h]

/-- Fuel irrelevance: once the fuel covers the input length, the result of a
substitution scan no longer depends on the fuel.  This is the formal content
of "each pass terminates within its input-length budget". -/
theorem scanGo_fuel (step : ScanStep) (hs : StepShrinks step) :
    ∀ fuel cs, cs.length ≤ fuel → scanGo step fuel cs = scanGo step cs.length cs := by
  intro fuel
  induction fuel using Nat.strong_induction_on with
  | _ fuel ih =>
    intro cs hlen
    cases fuel with
    | zero =>
      have hnil : cs = [] := List.eq_nil_of_length_eq_zero (Nat.le_zero.mp hlen)
      subst hnil; rfl
    | succ fuel =>
      cases cs with
      | nil => rfl
      | cons c cs =>
        have hlen' : cs.length ≤ fuel := by simpa using hlen
        cases hstep : step (c :: cs) with
        | none =>
          rw [scanGo_cons_none hstep fuel]
          rw [show (c :: cs).length = cs.length + 1 from rfl]
          rw [scanGo_cons_none hstep cs.length]
          rw [ih fuel (Nat.lt_succ_self _) cs hlen',
            ih cs.length (Nat.lt_succ_of_le hlen') cs (le_refl _)]
        | some pr =>
          obtain ⟨out, rest⟩ := pr
          have hrest : rest.length ≤ cs.length := Nat.lt_succ_iff.mp (hs _ _ _ hstep)
          rw [scanGo_cons_some hstep fuel]
          rw [show (c :: cs).length = cs.length + 1 from rfl]
          rw [scanGo_cons_some hstep cs.length]
          rw [ih fuel (Nat.lt_succ_self _) rest (le_trans hrest hlen'),
            ih cs.length (Nat.lt_succ_of_le hlen') rest hrest]

/-- Fuel irrelevance for `findAllGo`. -/
theorem findAllGo_fuel (step : ScanStep) (hs : StepShrinks step) :
    ∀ fuel cs, cs.length ≤ fuel → findAllGo step fuel cs = findAllGo step cs.length cs := by
  intro fuel
  induction fuel using Nat.strong_induction_on with
  | _ fuel ih =>
    intro cs hlen
    cases fuel with
    | zero =>
      have hnil : cs = [] := List.eq_nil_of_length_eq_zero (Nat.le_zero.mp hlen)
      subst hnil; rfl
    | succ fuel =>
      cases cs with
      | nil => rfl
      | cons c cs =>
        have hlen' : cs.length ≤ fuel := by simpa using hlen
        cases hstep : step (c :: cs) with
        | none =>
          rw [findAllGo_cons_none hstep fuel]
          rw [show (c :: cs).length = cs.length + 1 from rfl]
          rw [findAllGo_cons_none hstep cs.length]
          rw [ih fuel (Nat.lt_succ_self _) cs hlen',
            ih cs.length (Nat.lt_succ_of_le hlen') cs (le_refl _)]
        | some pr =>
          obtain ⟨m, rest⟩ := pr
          have hrest : rest.length ≤ cs.length := Nat.lt_succ_iff.mp (hs _ _ _ hstep)
          rw [findAllGo_cons_some hstep fuel]
          rw [show (c :: cs).length = cs.length + 1 from rfl]
          rw [findAllGo_cons_some hstep cs.length]
          rw [ih fuel (Nat.lt_succ_self _) rest (le_trans hrest hlen'),
            ih cs.length (Nat.lt_succ_of_le hlen') rest hrest]

/-- Surplus fuel never changes a substitution pass. -/
theorem scanSubK_eq (step : ScanStep) (hs : StepShrinks step) (extra : Nat) (cs : Chars) :
    scanSubK extra step cs = scanSub step cs :=
  scanGo_fuel step hs (cs.length + extra) cs (Nat.le_add_right _ _)

/-- Surplus fuel never changes a match-collection pass. -/
theorem findAllK_eq (step : ScanStep) (hs : StepShrinks step) (extra : Nat) (cs : Chars) :
    findAllK extra step cs = findAll step cs :=
  findAllGo_fuel step hs (cs.length + extra) cs (Nat.le_add_right _ _)

/-- If the step never matches at any position of `cs`, the scan is the
identity (with any fuel). -/
theorem scanGo_of_none (step : ScanStep) :
    ∀ fuel (cs : Chars), (∀ i, i < cs.length → step (cs.drop i) = none) →
      scanGo step fuel cs = cs := by
  intro fuel cs
  induction cs generalizing fuel with
  | nil => cases fuel <;> intro _ <;> rfl
  | cons c cs ihc =>
    intro h
    cases fuel with
    | zero => rfl
    | succ fuel =>
      have h0 : step (c :: cs) = none := by simpa using h 0 (by simp)
      rw [scanGo_cons_none h0 fuel, ihc fuel]
      intro i hi
      simpa using h (i + 1) (by simpa using Nat.succ_lt_succ hi)

/-- If the step never matches at any position of `cs`, no match is found. -/
theorem findAllGo_of_none (step : ScanStep) :
    ∀ fuel (cs : Chars), (∀ i, i < cs.length → step (cs.drop i) = none) →
      findAllGo step fuel cs = [] := by
  intro fuel cs
  induction cs generalizing fuel with
  | nil => cases fuel <;> intro _ <;> rfl
  | cons c cs ihc =>
    intro h
    cases fuel with
    | zero => rfl
    | succ fuel =>
      have h0 : step (c :: cs) = none := by simpa using h 0 (by simp)
      rw [findAllGo_cons_none h0 fuel, ihc fuel]
      intro i hi
      simpa using h (i + 1) (by simpa using Nat.succ_lt_succ hi)

/-- Skipping over a match-free region: the scan copies `xs` verbatim and
continues on `ys` with the remaining fuel. -/
theorem scanGo_append_of_none (step : ScanStep) :
    ∀ fuel (xs ys : Chars), (∀ i, i < xs.length → step (xs.drop i ++ ys) = none) →
      scanGo step fuel (xs ++ ys) = xs ++ scanGo step (fuel - xs.length) ys := by
  intro fuel xs
  induction xs generalizing fuel with
  | nil => intro ys _; simp
  | cons x xs ihx =>
    intro ys h
    cases fuel with
    | zero =>
      cases ys with
      | nil => simp [scanGo]
      | cons y ys => simp [scanGo]
    | succ fuel =>
      have h0 : step (x :: (xs ++ ys)) = none := by simpa using h 0 (by simp)
      have : scanGo step (fuel + 1) ((x :: xs) ++ ys) =
          x :: scanGo step fuel (xs ++ ys) := scanGo_cons_none h0 fuel
      rw [this, ihx fuel ys]
      · simp [Nat.succ_sub_succ]
      · intro i hi
        simpa using h (i + 1) (by simpa using Nat.succ_lt_succ hi)

theorem scanGo_nil (step : ScanStep) (fuel : Nat) : scanGo step fuel [] = [] := by
  cases fuel <;> rfl

/-- If a step can only fire on a particular head character, it fires
nowhere in a string avoiding that character. -/
theorem step_none_at_drops (step : ScanStep) (ch : Char)
    (hstep : ∀ c t, c ≠ ch → step (c :: t) = none)
    {cs : Chars} (h : ch ∉ cs) : ∀ i, i < cs.length → step (cs.drop i) = none := by
  intro i hi
  cases hd : cs.drop i with
  | nil =>
    have := congrArg List.length hd
    simp at this
    omega
  | cons c t =>
    have hc : c ∈ cs := List.mem_of_mem_drop (by rw [hd]; exact List.mem_cons_self c t)
    exact hstep c t (fun he => h (he ▸ hc))

/-- Same, for scan positions inside the left part of an append. -/
theorem step_none_at_append (step : ScanStep) (ch : Char)
    (hstep : ∀ c t, c ≠ ch → step (c :: t) = none)
    {xs : Chars} (h : ch ∉ xs) (ys : Chars) :
    ∀ i, i < xs.length → step (xs.drop i ++ ys) = none := by
  intro i hi
  cases hd : xs.drop i with
  | nil =>
    have := congrArg List.length hd
    simp at this
    omega
  | cons c t =>
    have hc : c ∈ xs := List.mem_of_mem_drop (by rw [hd]; exact List.mem_cons_self c t)
    rw [List.cons_append]
    exact hstep c (t ++ ys) (fun he => h (he ▸ hc))

theorem takeWhile_all {p : Char → Bool} :
    ∀ {u : Chars}, (∀ c ∈ u, p c = true) → u.takeWhile p = u := by
  intro u
  induction u with
  | nil => intro _; rfl
  | cons c t ih =>
    intro h
    rw [List.takeWhile_cons_of_pos (h c (List.mem_cons_self c t))]
    rw [ih (fun d hd => h d (List.mem_cons_of_mem c hd))]

/-- A substitution scan whose only match is at position 0. -/
theorem scanSub_cons_of_none (step : ScanStep) {c : Char} {cs out rest : Chars}
    (h : step (c :: cs) = some (out, rest))
    (hrest : ∀ i, i < rest.length → step (rest.drop i) = none) :
    scanSub step (c :: cs) = out ++ rest := by
  rw [scanSub, List.length_cons, scanGo_cons_some h cs.length,
    scanGo_of_none step cs.length rest hrest]

/-- A match collection whose only match is at position 0. -/
theorem findAll_cons_of_none (step : ScanStep) {c : Char} {cs m rest : Chars}
    (h : step (c :: cs) = some (m, rest))
    (hrest : ∀ i, i < rest.length → step (rest.drop i) = none) :
    findAll step (c :: cs) = [m] := by
  rw [findAll, List.length_cons, findAllGo_cons_some h cs.length,
    findAllGo_of_none step cs.length rest hrest]

/-- A substitution scan that skips a match-free region, fires once, and
finds no further match. -/
theorem scanSub_skip_match (step : ScanStep) (xs : Chars) {c : Char} {cs out rest : Chars}
    (hskip : ∀ i, i < xs.length → step (xs.drop i ++ (c :: cs)) = none)
    (h : step (c :: cs) = some (out, rest))
    (hrest : ∀ i, i < rest.length → step (rest.drop i) = none) :
    scanSub step (xs ++ (c :: cs)) = xs ++ (out ++ rest) := by
  rw [scanSub, scanGo_append_of_none step _ xs (c :: cs) hskip]
  congr 1
  have hfl : (xs ++ (c :: cs)).length - xs.length = cs.length + 1 := by simp
  rw [hfl, scanGo_cons_some h cs.length, scanGo_of_none step cs.length rest hrest]

/-!
## Lazy delimiter matching

`findClose cls allowNl minLen acc cs` implements the search for the end of a
lazy group: it finds the earliest position of `cs` at which the literal
`cls` begins, subject to the group having at least `minLen` characters
(`.+?` has `minLen = 1`, `.*?` has `minLen = 0`) and, when `allowNl` is
false, to the group not crossing a newline (`.` without `re.DOTALL`).
`acc` holds the group read so far, in reverse.
-/

def findClose (cls : Chars) (allowNl : Bool) (minLen : Nat) : Chars → Chars → Option (Chars × Chars)
  | acc, cs =>
    if cls.isPrefixOf cs ∧ minLen ≤ acc.length then
      some (acc.reverse, cs.drop cls.length)
    else
      match cs with
      | [] => none
      | c :: cs' =>
        if ¬allowNl ∧ c = '\n' then none
        else findClose cls allowNl minLen (c :: acc) cs'

theorem findClose_length (cls : Chars) (allowNl : Bool) (minLen : Nat) :
    ∀ (cs acc content rest : Chars),
      findClose cls allowNl minLen acc cs = some (content, rest) →
      rest.length + cls.length ≤ cs.length := by
  intro cs
  induction cs with
  | nil =>
    intro acc content rest h
    rw [findClose] at h
    split at h
    · rename_i hcl
      obtain ⟨hpre, -⟩ := hcl
      rw [List.isPrefixOf_iff_prefix] at hpre
      have hlen : cls.length ≤ 0 := by simpa using hpre.length_le
      simp only [Option.some.injEq, Prod.mk.injEq] at h
      obtain ⟨-, rfl⟩ := h
      simp only [List.length_drop, List.length_nil]
      omega
    · simp at h
  | cons c cs ihc =>
    intro acc content rest h
    rw [findClose] at h
    split at h
    · rename_i hcl
      obtain ⟨hpre, -⟩ := hcl
      rw [List.isPrefixOf_iff_prefix] at hpre
      simp only [Option.some.injEq, Prod.mk.injEq] at h
      obtain ⟨-, rfl⟩ := h
      have hle : cls.length ≤ cs.length + 1 := by simpa using hpre.length_le
      simp only [List.length_drop, List.length_cons]
      omega
    · split at h
      · simp at h
      · have := ihc _ _ _ h
        simpa using Nat.le_succ_of_le this

/-- A lazy-group substitution step for a pattern of the form
`OPN(lazy group)CLS`, with the replacement built by `mk` from the group. -/
def lazyDelimStep (opn cls : Chars) (allowNl : Bool) (minLen : Nat)
    (mk : Chars → Chars) : ScanStep := fun cs =>
  if opn.isPrefixOf cs then
    match findClose cls allowNl minLen [] (cs.drop opn.length) with
    | some (content, rest) => some (mk content, rest)
    | none => none
  else none

theorem lazyDelimStep_shrinks (opn cls : Chars) (allowNl : Bool) (minLen : Nat)
    (mk : Chars → Chars) (hop : opn ≠ []) :
    StepShrinks (lazyDelimStep opn cls allowNl minLen mk) := by
  intro cs out rest h
  rw [lazyDelimStep] at h
  split at h
  · rename_i hpre
    cases hfc : findClose cls allowNl minLen [] (cs.drop opn.length) with
    | none => rw [hfc] at h; simp at h
    | some pr =>
      obtain ⟨content, rest'⟩ := pr
      rw [hfc] at h
      simp only [Option.some.injEq, Prod.mk.injEq] at h
      obtain ⟨-, rfl⟩ := h
      have h1 := findClose_length cls allowNl minLen _ _ _ _ hfc
      have h2 : (cs.drop opn.length).length = cs.length - opn.length := by simp
      have h3 : 1 ≤ opn.length := by
        cases opn with
        | nil => simp at hop
        | cons _ _ => simp
      rw [List.isPrefixOf_iff_prefix] at hpre
      have h4 : opn.length ≤ cs.length := hpre.length_le
      omega
  · simp at h

/-!
## Character classes and small string utilities
-/

/-- `\s` (on the ASCII range; the inputs of interest contain no exotic
Unicode whitespace). -/
def isPySpace (c : Char) : Bool :=
  c = ' ' || c = '\t' || c = '\n' || c = '\r' || c = '\x0b' || c = '\x0c'

/-- The character class `[^\s<>\"\'\)]` of the bare-URL regex in
`markdown_to_html` (selenium variant, line 112). -/
def isUrlChar (c : Char) : Bool :=
  !(isPySpace c || c = '<' || c = '>' || c = '"' || c = '\'' || c = ')')

/-- Python `str.strip()` (both ends, ASCII whitespace). -/
def pyStrip (cs : Chars) : Chars :=
  ((cs.dropWhile isPySpace).reverse.dropWhile isPySpace).reverse

/-- Python `str.split('\n')`. -/
def splitLines : Chars → List Chars
  | [] => [[]]
  | c :: cs =>
    if c = '\n' then [] :: splitLines cs
    else
      match splitLines cs with
      | [] => [[c]]
      | l :: ls => (c :: l) :: ls

/-- Python `'\n'.join(...)`. -/
def joinLines : List Chars → Chars
  | [] => []
  | [l] => l
  | l :: ls => l ++ '\n' :: joinLines ls

theorem splitLines_no_nl : ∀ cs : Chars, '\n' ∉ cs → splitLines cs = [cs] := by
  intro cs
  induction cs with
  | nil => intro _; rfl
  | cons c cs ihc =>
    intro h
    have hc : ¬c = '\n' := fun hc => h (by simp [hc])
    have hcs : '\n' ∉ cs := fun hm => h (by simp [hm])
    rw [splitLines]
    simp only [if_neg hc, ihc hcs]

theorem joinLines_single (l : Chars) : joinLines [l] = l := rfl

theorem pyStrip_cons (c : Char) (hc : isPySpace c = false) (xs : Chars) :
    pyStrip (c :: xs) = c :: (xs.reverse.dropWhile isPySpace).reverse := by
  rw [pyStrip]
  rw [List.dropWhile_cons_of_neg (by simp [hc])]
  rw [show (c :: xs).reverse = xs.reverse ++ [c] by simp]
  rw [List.dropWhile_append]
  by_cases he : (xs.reverse.dropWhile isPySpace).isEmpty
  · rw [if_pos he]
    rw [List.isEmpty_iff] at he
    simp [he, List.dropWhile_cons_of_neg (show ¬isPySpace c = true by simp [hc])]
  · rw [if_neg he]
    rw [List.isEmpty_iff] at he
    simp

/-- Index of the first occurrence of `pat` as a sublist, if any. -/
def findSubIdx (pat : Chars) : Chars → Option Nat
  | [] => if pat.isPrefixOf ([] : Chars) then some 0 else none
  | c :: cs =>
    if pat.isPrefixOf (c :: cs) then some 0
    else (findSubIdx pat cs).map (· + 1)

/-- The step of Python `str.replace(pat, rep)` (all occurrences, scanning
left to right).  `pat` is nonempty at every use in the scripts (masked
links and markers are never empty strings). -/
def replaceStep (pat rep : Chars) : ScanStep := fun cs =>
  if pat ≠ [] ∧ pat.isPrefixOf cs then some (rep, cs.drop pat.length) else none

theorem replaceStep_shrinks (pat rep : Chars) : StepShrinks (replaceStep pat rep) := by
  intro cs out rest h
  rw [replaceStep] at h
  split at h
  · rename_i hcl
    obtain ⟨hne, hpre⟩ := hcl
    simp only [Option.some.injEq, Prod.mk.injEq] at h
    obtain ⟨-, rfl⟩ := h
    have h3 : 1 ≤ pat.length := by
      cases pat with
      | nil => simp at hne
      | cons _ _ => simp
    rw [List.isPrefixOf_iff_prefix] at hpre
    have h4 : pat.length ≤ cs.length := hpre.length_le
    simp
    omega
  · simp at h

theorem replaceStep_head_none (p : Char) (pt rep : Chars) (c : Char) (t : Chars)
    (hc : c ≠ p) : replaceStep (p :: pt) rep (c :: t) = none := by
  have hbeq : (p == c) = false := beq_eq_false_iff_ne.mpr (Ne.symm hc)
  simp [replaceStep, List.isPrefixOf, hbeq]

/-- Python `str.replace` (all occurrences). -/
def pyReplace (s pat rep : Chars) : Chars :=
  scanSub (replaceStep pat rep) s

/-- `str.replace` with surplus fuel. -/
def pyReplaceK (extra : Nat) (s pat rep : Chars) : Chars :=
  scanSubK extra (replaceStep pat rep) s

/-!
## Shared literal fragments of the regexes

`aOpen ++ u ++ aMid ++ t ++ aClose` is `<a href="u">t</a>`.
-/

def aOpen : Chars := ['<', 'a', ' ', 'h', 'r', 'e', 'f', '=', '"']

def aMid : Chars := ['"', '>']

def aClose : Chars := ['<', '/', 'a', '>']

def httpProto : Chars := ['h', 't', 't', 'p', ':', '/', '/']

def httpsProto : Chars := ['h', 't', 't', 'p', 's', ':', '/', '/']

/-- `https?://` of the link/URL regexes: the protocol prefix matched at the
head of `cs`, or `[]` when neither alternative matches. -/
def matchProto (cs : Chars) : Chars :=
  if httpsProto.isPrefixOf cs then httpsProto
  else if httpProto.isPrefixOf cs then httpProto
  else []

/-!
## Markdown link matching

`linkFind g2m acc cs` scans for the end of the lazy group `(.+?)` of
`\[(.+?)\]\(...\)`: at each `]` followed by `(` it hands the remainder to
the group-2 matcher `g2m`; when that fails, the regex engine extends the
lazy first group past this `]` and keeps scanning, which is exactly what
the recursion does.  The group may not cross a newline.
-/

/-- Match one literal character at the head, returning the remainder. -/
def headIs (c : Char) : Chars → Option Chars
  | d :: rest => if d = c then some rest else none
  | [] => none

theorem headIs_length {c : Char} {cs rest : Chars} (h : headIs c cs = some rest) :
    rest.length + 1 = cs.length := by
  cases cs with
  | nil => simp [headIs] at h
  | cons d cs =>
    rw [headIs] at h
    split at h
    · simp only [Option.some.injEq] at h; subst h; simp
    · simp at h

def linkTryClose (g2m : Chars → Option (Chars × Chars)) (acc : Chars) (c : Char)
    (cs : Chars) : Option (Chars × Chars × Chars) :=
  if c = ']' ∧ acc ≠ [] then
    match headIs '(' cs with
    | some cs2 =>
      match g2m cs2 with
      | some (g2, rest) => some (acc.reverse, g2, rest)
      | none => none
    | none => none
  else none

def linkFind (g2m : Chars → Option (Chars × Chars)) : Chars → Chars → Option (Chars × Chars × Chars)
  | _, [] => none
  | acc, c :: cs =>
    match linkTryClose g2m acc c cs with
    | some r => some r
    | none => if c = '\n' then none else linkFind g2m (c :: acc) cs

/-- A Markdown-link substitution step `\[(.+?)\]\(G2\)` where `g2m` decides
the shape of the second group, and `mk g1 g2` builds the replacement. -/
def linkStep (g2m : Chars → Option (Chars × Chars))
    (mk : Chars → Chars → Chars) : ScanStep := fun cs =>
  match headIs '[' cs with
  | some cs1 =>
    match linkFind g2m [] cs1 with
    | some (g1, g2, rest) => some (mk g1 g2, rest)
    | none => none
  | none => none

/-- Bound for the group-2 matcher: the rest after a successful group-2 match
is strictly shorter than its input. -/
def G2Shrinks (g2m : Chars → Option (Chars × Chars)) : Prop :=
  ∀ cs g2 rest, g2m cs = some (g2, rest) → rest.length < cs.length

theorem linkTryClose_length (g2m : Chars → Option (Chars × Chars)) (hg : G2Shrinks g2m)
    (acc : Chars) (c : Char) (cs g1 g2 rest : Chars)
    (h : linkTryClose g2m acc c cs = some (g1, g2, rest)) : rest.length < cs.length := by
  rw [linkTryClose] at h
  split at h
  · cases hhd : headIs '(' cs with
    | none => rw [hhd] at h; simp at h
    | some cs2 =>
      rw [hhd] at h
      dsimp only at h
      have hlen := headIs_length hhd
      cases hg2 : g2m cs2 with
      | none => rw [hg2] at h; simp at h
      | some pr =>
        obtain ⟨g2', rest'⟩ := pr
        rw [hg2] at h
        simp only [Option.some.injEq, Prod.mk.injEq] at h
        obtain ⟨-, -, hr⟩ := h
        subst hr
        have := hg _ _ _ hg2
        omega
  · simp at h

theorem linkFind_length (g2m : Chars → Option (Chars × Chars)) (hg : G2Shrinks g2m) :
    ∀ (cs acc g1 g2 rest : Chars), linkFind g2m acc cs = some (g1, g2, rest) →
      rest.length < cs.length := by
  intro cs
  induction cs with
  | nil => intro acc g1 g2 rest h; simp [linkFind] at h
  | cons c cs ihc =>
    intro acc g1 g2 rest h
    rw [linkFind] at h
    cases htc : linkTryClose g2m acc c cs with
    | some r =>
      rw [htc] at h
      simp only [Option.some.injEq] at h
      subst h
      have := linkTryClose_length g2m hg acc c cs _ _ _ htc
      simp only [List.length_cons]
      omega
    | none =>
      rw [htc] at h
      simp only at h
      split at h
      · simp at h
      · have := ihc _ _ _ _ h
        simp only [List.length_cons]
        omega

theorem linkStep_shrinks (g2m : Chars → Option (Chars × Chars)) (hg : G2Shrinks g2m)
    (mk : Chars → Chars → Chars) : StepShrinks (linkStep g2m mk) := by
  intro cs out rest h
  rw [linkStep] at h
  cases hhd : headIs '[' cs with
  | none => rw [hhd] at h; simp at h
  | some cs1 =>
    rw [hhd] at h
    dsimp only at h
    have hlen := headIs_length hhd
    cases hlf : linkFind g2m [] cs1 with
    | none => rw [hlf] at h; simp at h
    | some tr =>
      obtain ⟨g1, g2, rest'⟩ := tr
      rw [hlf] at h
      simp only [Option.some.injEq, Prod.mk.injEq] at h
      obtain ⟨-, hr⟩ := h
      subst hr
      have := linkFind_length g2m hg cs1 _ _ _ _ hlf
      omega

end NotePoster

/-!
# `scripts/note_draft_poster_selenium.py` — text transform

Embedding of `remove_non_bmp` (line 56) and `markdown_to_html`
(lines 61-121), pass by pass in source order.
-/

namespace NoteDraftPosterSelenium

open NotePoster

/-- `remove_non_bmp` (line 56): keep characters with code point ≤ 0xFFFF. -/
def remove_non_bmp (cs : Chars) : Chars :=
  cs.filter (fun c => decide (c.toNat ≤ 0xFFFF))

/-- `^---\n` -/
def fmOpen : Chars := ['-', '-', '-', '\n']

/-- `\n---\n` -/
def fmClose : Chars := ['\n', '-', '-', '-', '\n']

/-- Line 74: `re.sub(r'^---\n.*?\n---\n', '', text, flags=re.DOTALL)`.
Without `re.MULTILINE` the anchor `^` only matches at position 0, so at
most one leading front-matter block is removed; `.*?` is lazy, so the
earliest `\n---\n` closes it. -/
def stripFrontmatter (cs : Chars) : Chars :=
  if fmOpen.isPrefixOf cs then
    match findSubIdx fmClose (cs.drop 4) with
    | some i => (cs.drop 4).drop (i + 5)
    | none => cs
  else cs

def h3pre : Chars := ['#', '#', '#', ' ']

def h2pre : Chars := ['#', '#', ' ']

def h1pre : Chars := ['#', ' ']

/-- One line under `re.sub(r'^PRE (.+)$', r'M \1', text, flags=re.MULTILINE)`:
with MULTILINE the pattern is line-local, and `(.+)` (no newline, at least
one character) is the rest of the line. -/
def subHeadingLine (pre : Chars) (marker : Char) (l : Chars) : Chars :=
  if pre.isPrefixOf l ∧ l.drop pre.length ≠ [] then marker :: ' ' :: l.drop pre.length
  else l

/-- A MULTILINE heading pass (lines 77-79). -/
def subHeading (pre : Chars) (marker : Char) (cs : Chars) : Chars :=
  joinLines ((splitLines cs).map (subHeadingLine pre marker))

theorem subHeading_single_neg {pre : Chars} {m : Char} {l : Chars} (h : '\n' ∉ l)
    (hp : ¬(pre.isPrefixOf l ∧ l.drop pre.length ≠ [])) :
    subHeading pre m l = l := by
  rw [subHeading, splitLines_no_nl _ h]
  simp only [List.map_cons, List.map_nil]
  rw [subHeadingLine, if_neg hp]
  rfl

theorem subHeading_single_pos {pre : Chars} {m : Char} {l : Chars} (h : '\n' ∉ l)
    (hp : pre.isPrefixOf l ∧ l.drop pre.length ≠ []) :
    subHeading pre m l = m :: ' ' :: l.drop pre.length := by
  rw [subHeading, splitLines_no_nl _ h]
  simp only [List.map_cons, List.map_nil]
  rw [subHeadingLine, if_pos hp]
  rfl

/-- Line 82: `\*\*(.+?)\*\*` → `【\1】`. -/
def boldStepSel : ScanStep :=
  lazyDelimStep ['*', '*'] ['*', '*'] false 1 (fun g => '【' :: (g ++ ['】']))

/-- Line 85: `\*(.+?)\*` → `\1`. -/
def italicStepSel : ScanStep :=
  lazyDelimStep ['*'] ['*'] false 1 (fun g => g)

/-- Line 88: `` `(.+?)` `` → `「\1」`. -/
def codeStepSel : ScanStep :=
  lazyDelimStep ['`'] ['`'] false 1 (fun g => '「' :: (g ++ ['」']))

/-- Line 91: ``` ```[\s\S]*?``` ``` → `''` (the group may cross newlines). -/
def codeBlockStep : ScanStep :=
  lazyDelimStep ['`', '`', '`'] ['`', '`', '`'] true 0 (fun _ => [])

/-- Group 2 of line 94: `(https?://[^\)]+)` followed by the literal `)`.
`[^\)]+` is greedy and may cross newlines, so it runs to the first `)`,
which must exist. -/
def selLinkG2 (cs : Chars) : Option (Chars × Chars) :=
  let proto := matchProto cs
  if proto = [] then none
  else
    let after := cs.drop proto.length
    let run := after.takeWhile (fun c => c != ')')
    if run = [] then none
    else
      match headIs ')' (after.drop run.length) with
      | some rest => some (proto ++ run, rest)
      | none => none

/-- `<a href="g2">g1</a>` — the replacement of line 94 (and the shape of a
bare-URL replacement when `g1 = g2`). -/
def mkALink (g1 g2 : Chars) : Chars :=
  aOpen ++ g2 ++ aMid ++ g1 ++ aClose

/-- Line 94: `re.sub(r'\[(.+?)\]\((https?://[^\)]+)\)', r'<a href="\2">\1</a>', text)`. -/
def selLinkStep : ScanStep :=
  linkStep selLinkG2 mkALink

def imgOpn : Chars := ['【', 'I', 'M', 'A', 'G', 'E', '_']

/-- Line 97: `re.sub(r'【IMAGE_\d+】.*', '', text)` — `.*` (greedy, no
newline) deletes to the end of the line. -/
def imagePlaceholderStep : ScanStep := fun cs =>
  if imgOpn.isPrefixOf cs then
    let after := cs.drop imgOpn.length
    let ds := after.takeWhile Char.isDigit
    if ds = [] then none
    else
      match headIs '】' (after.drop ds.length) with
      | some rest1 => some ([], rest1.dropWhile (fun c => c != '\n'))
      | none => none
  else none

/-- Line 98: `re.sub(r'【ここに.*?挿入】', '', text)`. -/
def kokoniStep : ScanStep :=
  lazyDelimStep ['【', 'こ', 'こ', 'に'] ['挿', '入', '】'] false 0 (fun _ => [])

/-- Line 101: `re.sub(r'\n{3,}', '\n\n', text)` — a maximal run of three or
more newlines collapses to two. -/
def collapseStep : ScanStep := fun cs =>
  let run := cs.takeWhile (fun c => c == '\n')
  if 3 ≤ run.length then some (['\n', '\n'], cs.drop run.length) else none

/-- Line 106: the masking pattern `<a href="[^"]+">.*?</a>` (no capture
groups, so `re.findall` yields whole matches). -/
def maskStep : ScanStep := fun cs =>
  if aOpen.isPrefixOf cs then
    let after := cs.drop aOpen.length
    let href := after.takeWhile (fun c => c != '"')
    if href = [] then none
    else
      match (headIs '"' (after.drop href.length)).bind (headIs '>') with
      | some rest1 =>
        match findClose aClose false 0 [] rest1 with
        | some (content, rest) =>
          some (aOpen ++ href ++ aMid ++ content ++ aClose, rest)
        | none => none
      | none => none
  else none

/-- Lines 111-115: `re.sub(r'(https?://[^\s<>\"\'\)]+)', r'<a href="\1">\1</a>', ...)`. -/
def urlStep : ScanStep := fun cs =>
  let proto := matchProto cs
  if proto = [] then none
  else
    let after := cs.drop proto.length
    let run := after.takeWhile isUrlChar
    if run = [] then none
    else some (mkALink (proto ++ run) (proto ++ run), after.drop run.length)

theorem maskStep_head_none (c : Char) (t : Chars) (hc : c ≠ '<') : maskStep (c :: t) = none := by
  have hbeq : (('<' : Char) == c) = false := beq_eq_false_iff_ne.mpr (Ne.symm hc)
  simp [maskStep, aOpen, List.isPrefixOf, hbeq]

theorem urlStep_head_none (c : Char) (t : Chars) (hc : c ≠ 'h') : urlStep (c :: t) = none := by
  have hbeq : (('h' : Char) == c) = false := beq_eq_false_iff_ne.mpr (Ne.symm hc)
  simp [urlStep, matchProto, httpProto, httpsProto, List.isPrefixOf, hbeq]

/-- `f'__LINK_MARKER_{i}__'` (lines 108 and 119). -/
def linkMarker (i : Nat) : Chars :=
  ['_', '_', 'L', 'I', 'N', 'K', '_', 'M', 'A', 'R', 'K', 'E', 'R', '_'] ++
    Nat.toDigits 10 i ++ ['_', '_']

/-- Lines 107-108: replace each found link by its numbered marker. -/
def maskLinks : Nat → List Chars → Chars → Chars
  | _, [], t => t
  | i, l :: ls, t => maskLinks (i + 1) ls (pyReplace t l (linkMarker i))

/-- Lines 118-119: restore each marker to its link. -/
def unmaskLinks : Nat → List Chars → Chars → Chars
  | _, [], t => t
  | i, l :: ls, t => unmaskLinks (i + 1) ls (pyReplace t (linkMarker i) l)

/-- Lines 103-119: mask the links found by `re.findall` (line 106) with
numbered markers, wrap bare URLs, then restore the markers. -/
def linkifyUrls (t : Chars) : Chars :=
  unmaskLinks 0 (findAll maskStep t)
    (scanSub urlStep (maskLinks 0 (findAll maskStep t) t))

theorem maskLinks_one (i : Nat) (l t : Chars) :
    maskLinks i [l] t = pyReplace t l (linkMarker i) := rfl

theorem unmaskLinks_one (i : Nat) (l t : Chars) :
    unmaskLinks i [l] t = pyReplace t (linkMarker i) l := rfl

theorem boldStepSel_shrinks : StepShrinks boldStepSel :=
  lazyDelimStep_shrinks _ _ _ _ _ (by decide)

theorem italicStepSel_shrinks : StepShrinks italicStepSel :=
  lazyDelimStep_shrinks _ _ _ _ _ (by decide)

theorem codeStepSel_shrinks : StepShrinks codeStepSel :=
  lazyDelimStep_shrinks _ _ _ _ _ (by decide)

theorem codeBlockStep_shrinks : StepShrinks codeBlockStep :=
  lazyDelimStep_shrinks _ _ _ _ _ (by decide)

theorem kokoniStep_shrinks : StepShrinks kokoniStep :=
  lazyDelimStep_shrinks _ _ _ _ _ (by decide)

theorem selLinkG2_shrinks : G2Shrinks selLinkG2 := by
  intro cs g2 rest h
  simp only [selLinkG2] at h
  split at h
  · simp at h
  · rename_i hproto
    split at h
    · simp at h
    · rename_i hrun
      cases hhd : headIs ')'
          ((cs.drop (matchProto cs).length).drop
            (((cs.drop (matchProto cs).length).takeWhile (fun c => c != ')')).length)) with
      | none => rw [hhd] at h; simp at h
      | some rest1 =>
        rw [hhd] at h
        simp only [Option.some.injEq, Prod.mk.injEq] at h
        obtain ⟨-, rfl⟩ := h
        have hl1 := headIs_length hhd
        have hrunpos : 1 ≤ ((cs.drop (matchProto cs).length).takeWhile
            (fun c => c != ')')).length := by
          cases hx : (cs.drop (matchProto cs).length).takeWhile (fun c => c != ')') with
          | nil => exact absurd hx hrun
          | cons a l => simp [hx]
        have hrle : ((cs.drop (matchProto cs).length).takeWhile (fun c => c != ')')).length ≤
            (cs.drop (matchProto cs).length).length :=
          (List.takeWhile_sublist _).length_le
        have hdle : (cs.drop (matchProto cs).length).length ≤ cs.length := by
          simp
        simp only [List.length_drop] at hl1
        omega

theorem selLinkStep_shrinks : StepShrinks selLinkStep :=
  linkStep_shrinks _ selLinkG2_shrinks _

theorem imagePlaceholderStep_shrinks : StepShrinks imagePlaceholderStep := by
  intro cs out rest h
  simp only [imagePlaceholderStep] at h
  split at h
  · rename_i hpre
    split at h
    · simp at h
    · rename_i hds
      cases hhd : headIs '】'
          ((cs.drop imgOpn.length).drop
            (((cs.drop imgOpn.length).takeWhile Char.isDigit).length)) with
      | none => rw [hhd] at h; simp at h
      | some rest1 =>
        rw [hhd] at h
        simp only [Option.some.injEq, Prod.mk.injEq] at h
        obtain ⟨-, rfl⟩ := h
        have hl1 := headIs_length hhd
        have hdw : (rest1.dropWhile (fun c => c != '\n')).length ≤ rest1.length :=
          (List.dropWhile_sublist _).length_le
        rw [List.isPrefixOf_iff_prefix] at hpre
        have hopl : imgOpn.length ≤ cs.length := hpre.length_le
        have hople : imgOpn.length = 7 := rfl
        simp only [List.length_drop] at hl1
        omega
  · simp at h

theorem collapseStep_shrinks : StepShrinks collapseStep := by
  intro cs out rest h
  simp only [collapseStep] at h
  split at h
  · rename_i hrun
    simp only [Option.some.injEq, Prod.mk.injEq] at h
    obtain ⟨-, rfl⟩ := h
    have hrle : ((cs.takeWhile (fun c => c == '\n')).length) ≤ cs.length :=
      (List.takeWhile_sublist _).length_le
    simp only [List.length_drop]
    omega
  · simp at h

theorem maskStep_shrinks : StepShrinks maskStep := by
  intro cs out rest h
  simp only [maskStep] at h
  split at h
  · rename_i hpre
    split at h
    · simp at h
    · rename_i hhr
      cases hbd : (headIs '"'
          ((cs.drop aOpen.length).drop
            (((cs.drop aOpen.length).takeWhile (fun c => c != '"')).length))).bind
            (headIs '>') with
      | none => rw [hbd] at h; simp at h
      | some rest1 =>
        rw [hbd] at h
        dsimp only at h
        cases hfc : findClose aClose false 0 [] rest1 with
        | none => rw [hfc] at h; simp at h
        | some pr =>
          obtain ⟨content, rest'⟩ := pr
          rw [hfc] at h
          simp only [Option.some.injEq, Prod.mk.injEq] at h
          obtain ⟨-, rfl⟩ := h
          have hfl := findClose_length aClose false 0 rest1 [] content rest' hfc
          obtain ⟨mid, hm1, hm2⟩ : ∃ mid, headIs '"'
              ((cs.drop aOpen.length).drop
                (((cs.drop aOpen.length).takeWhile (fun c => c != '"')).length)) = some mid ∧
              headIs '>' mid = some rest1 := by
            cases hx : headIs '"'
                ((cs.drop aOpen.length).drop
                  (((cs.drop aOpen.length).takeWhile (fun c => c != '"')).length)) with
            | none => rw [hx] at hbd; simp at hbd
            | some mid => exact ⟨mid, rfl, by rw [hx] at hbd; simpa using hbd⟩
          have hl1 := headIs_length hm1
          have hl2 := headIs_length hm2
          have hhrpos : 1 ≤ ((cs.drop aOpen.length).takeWhile (fun c => c != '"')).length := by
            cases hx : (cs.drop aOpen.length).takeWhile (fun c => c != '"') with
            | nil => exact absurd hx hhr
            | cons a l => simp [hx]
          rw [List.isPrefixOf_iff_prefix] at hpre
          have hopl : aOpen.length ≤ cs.length := hpre.length_le
          have hople : aOpen.length = 9 := rfl
          have hacl : aClose.length = 4 := rfl
          simp only [List.length_drop] at hl1
          omega
  · simp at h

theorem urlStep_shrinks : StepShrinks urlStep := by
  intro cs out rest h
  simp only [urlStep] at h
  split at h
  · simp at h
  · rename_i hproto
    split at h
    · simp at h
    · rename_i hrun
      simp only [Option.some.injEq, Prod.mk.injEq] at h
      obtain ⟨-, rfl⟩ := h
      have hrunpos : 1 ≤ ((cs.drop (matchProto cs).length).takeWhile isUrlChar).length := by
        cases hx : (cs.drop (matchProto cs).length).takeWhile isUrlChar with
        | nil => exact absurd hx hrun
        | cons a l => simp [hx]
      have hrle : ((cs.drop (matchProto cs).length).takeWhile isUrlChar).length ≤
          (cs.drop (matchProto cs).length).length :=
        (List.takeWhile_sublist _).length_le
      have hpne : matchProto cs ≠ [] := by simpa [matchProto] using hproto
      have hppos : 1 ≤ (matchProto cs).length := List.length_pos.mpr hpne
      rw [List.length_drop, List.length_drop]
      have := List.length_drop (matchProto cs).length cs
      omega

/-- `markdown_to_html` (lines 61-121), pass by pass in source order,
finishing with `.strip()`. -/
def markdown_to_html (markdown_text : Chars) : Chars :=
  let text := remove_non_bmp markdown_text
  let text := stripFrontmatter text
  let text := subHeading h3pre '▼' text
  let text := subHeading h2pre '■' text
  let text := subHeading h1pre '◆' text
  let text := scanSub boldStepSel text
  let text := scanSub italicStepSel text
  let text := scanSub codeStepSel text
  let text := scanSub codeBlockStep text
  let text := scanSub selLinkStep text
  let text := scanSub imagePlaceholderStep text
  let text := scanSub kokoniStep text
  let text := scanSub collapseStep text
  pyStrip (linkifyUrls text)

/-!
## Totality of the transform

Every pass above runs on the canonical fuel (its input length).  The
`K` variants below run the same passes with an arbitrary fuel surplus;
`markdown_to_htmlK_eq_sel` shows the surplus never changes the result,
i.e. every scanning recursion terminates within its input-length budget.
-/

def maskLinksK (extra : Nat) : Nat → List Chars → Chars → Chars
  | _, [], t => t
  | i, l :: ls, t => maskLinksK extra (i + 1) ls (pyReplaceK extra t l (linkMarker i))

def unmaskLinksK (extra : Nat) : Nat → List Chars → Chars → Chars
  | _, [], t => t
  | i, l :: ls, t => unmaskLinksK extra (i + 1) ls (pyReplaceK extra t (linkMarker i) l)

def linkifyUrlsK (extra : Nat) (t : Chars) : Chars :=
  unmaskLinksK extra 0 (findAllK extra maskStep t)
    (scanSubK extra urlStep (maskLinksK extra 0 (findAllK extra maskStep t) t))

def markdown_to_htmlK (extra : Nat) (markdown_text : Chars) : Chars :=
  let text := remove_non_bmp markdown_text
  let text := stripFrontmatter text
  let text := subHeading h3pre '▼' text
  let text := subHeading h2pre '■' text
  let text := subHeading h1pre '◆' text
  let text := scanSubK extra boldStepSel text
  let text := scanSubK extra italicStepSel text
  let text := scanSubK extra codeStepSel text
  let text := scanSubK extra codeBlockStep text
  let text := scanSubK extra selLinkStep text
  let text := scanSubK extra imagePlaceholderStep text
  let text := scanSubK extra kokoniStep text
  let text := scanSubK extra collapseStep text
  pyStrip (linkifyUrlsK extra text)

theorem pyReplaceK_eq (extra : Nat) (s pat rep : Chars) :
    pyReplaceK extra s pat rep = pyReplace s pat rep :=
  scanSubK_eq _ (replaceStep_shrinks pat rep) extra s

theorem maskLinksK_eq (extra : Nat) :
    ∀ (ls : List Chars) (i : Nat) (t : Chars), maskLinksK extra i ls t = maskLinks i ls t := by
  intro ls
  induction ls with
  | nil => intro i t; rfl
  | cons l ls ihl =>
    intro i t
    rw [maskLinksK, maskLinks, pyReplaceK_eq, ihl]

theorem unmaskLinksK_eq (extra : Nat) :
    ∀ (ls : List Chars) (i : Nat) (t : Chars), unmaskLinksK extra i ls t = unmaskLinks i ls t := by
  intro ls
  induction ls with
  | nil => intro i t; rfl
  | cons l ls ihl =>
    intro i t
    rw [unmaskLinksK, unmaskLinks, pyReplaceK_eq, ihl]

theorem linkifyUrlsK_eq (extra : Nat) (t : Chars) : linkifyUrlsK extra t = linkifyUrls t := by
  rw [linkifyUrlsK, linkifyUrls]
  rw [findAllK_eq _ maskStep_shrinks, maskLinksK_eq, unmaskLinksK_eq,
    scanSubK_eq _ urlStep_shrinks]

theorem markdown_to_htmlK_eq_sel (extra : Nat) (markdown_text : Chars) :
    markdown_to_htmlK extra markdown_text = markdown_to_html markdown_text := by
  rw [markdown_to_htmlK, markdown_to_html]
  rw [scanSubK_eq _ boldStepSel_shrinks, scanSubK_eq _ italicStepSel_shrinks,
    scanSubK_eq _ codeStepSel_shrinks, scanSubK_eq _ codeBlockStep_shrinks,
    scanSubK_eq _ selLinkStep_shrinks, scanSubK_eq _ imagePlaceholderStep_shrinks,
    scanSubK_eq _ kokoniStep_shrinks, scanSubK_eq _ collapseStep_shrinks, linkifyUrlsK_eq]

end NoteDraftPosterSelenium

/-!
# `scripts/note_draft_poster.py` — text transform

Embedding of `markdown_to_html` (lines 285-378) and
`apply_inline_formatting` (lines 381-392).
-/

namespace NoteDraftPoster

open NotePoster

/-- `\*\*(.+?)\*\*` → `<strong>\1</strong>` (line 384). -/
def boldStepApi : ScanStep :=
  lazyDelimStep ['*', '*'] ['*', '*'] false 1
    (fun g => ['<', 's', 't', 'r', 'o', 'n', 'g', '>'] ++ g ++ ['<', '/', 's', 't', 'r', 'o', 'n', 'g', '>'])

/-- `\*(.+?)\*` → `<em>\1</em>` (line 386). -/
def italicStepApi : ScanStep :=
  lazyDelimStep ['*'] ['*'] false 1
    (fun g => ['<', 'e', 'm', '>'] ++ g ++ ['<', '/', 'e', 'm', '>'])

/-- `` `(.+?)` `` → `<code>\1</code>` (line 388). -/
def codeStepApi : ScanStep :=
  lazyDelimStep ['`'] ['`'] false 1
    (fun g => ['<', 'c', 'o', 'd', 'e', '>'] ++ g ++ ['<', '/', 'c', 'o', 'd', 'e', '>'])

/-- Group 2 of `\[(.+?)\]\((.+?)\)` (line 390): a lazy nonempty non-newline
group closed by `)`. -/
def apiLinkG2 (cs : Chars) : Option (Chars × Chars) :=
  findClose [')'] false 1 [] cs

/-- `\[(.+?)\]\((.+?)\)` → `<a href="\2">\1</a>` (line 390). -/
def apiLinkStep : ScanStep :=
  linkStep apiLinkG2 (fun g1 g2 => aOpen ++ g2 ++ aMid ++ g1 ++ aClose)

theorem boldStepApi_shrinks : NotePoster.StepShrinks boldStepApi :=
  NotePoster.lazyDelimStep_shrinks _ _ _ _ _ (by decide)

theorem italicStepApi_shrinks : NotePoster.StepShrinks italicStepApi :=
  NotePoster.lazyDelimStep_shrinks _ _ _ _ _ (by decide)

theorem codeStepApi_shrinks : NotePoster.StepShrinks codeStepApi :=
  NotePoster.lazyDelimStep_shrinks _ _ _ _ _ (by decide)

theorem apiLinkG2_shrinks : NotePoster.G2Shrinks apiLinkG2 := by
  intro cs g2 rest h
  unfold apiLinkG2 at h
  have := NotePoster.findClose_length [')'] false 1 cs [] g2 rest h
  simp only [List.length_cons, List.length_nil] at this
  omega

theorem apiLinkStep_shrinks : NotePoster.StepShrinks apiLinkStep :=
  NotePoster.linkStep_shrinks _ apiLinkG2_shrinks _

/-- `apply_inline_formatting` (lines 381-392): bold, italic, inline code,
links, in source order. -/
def apply_inline_formatting (text : Chars) : Chars :=
  let text := scanSub boldStepApi text
  let text := scanSub italicStepApi text
  let text := scanSub codeStepApi text
  scanSub apiLinkStep text

/-- The loop state of `markdown_to_html` (lines 296-300). -/
structure MdState where
  html_lines : List Chars
  in_list : Bool
  in_code_block : Bool
  code_content : List Chars

/-- The repeated `if in_list: html_lines.append('</ul>'); in_list = False`. -/
def closeList (st : MdState) : MdState :=
  if st.in_list then
    { st with html_lines := st.html_lines ++ [['<', '/', 'u', 'l', '>']], in_list := false }
  else st

/-- The repeated `if not in_list: html_lines.append('<ul>'); in_list = True`. -/
def openList (st : MdState) : MdState :=
  if st.in_list then st
  else { st with html_lines := st.html_lines ++ [['<', 'u', 'l', '>']], in_list := true }

/-- `re.match(r'^\d+\. ', s)`: one or more digits then `. ` at the start. -/
def isOlItem (s : Chars) : Bool :=
  let ds := s.takeWhile Char.isDigit
  !ds.isEmpty && ['.', ' '].isPrefixOf (s.drop ds.length)

/-- `re.sub(r'^\d+\. ', '', s)`: strip the ordered-list marker when present
(the anchored pattern matches at most once). -/
def stripOlMarker (s : Chars) : Chars :=
  if isOlItem s then s.drop ((s.takeWhile Char.isDigit).length + 2) else s

/-- `<h3>{x}</h3>` etc. -/
def tagWrap (tag : Chars) (x : Chars) : Chars :=
  '<' :: tag ++ '>' :: x ++ '<' :: '/' :: tag ++ ['>']

/-- One iteration of the line loop of `markdown_to_html` (lines 302-372),
with the checks in source order.  `fmt` is `apply_inline_formatting`
(parameterised so that the surplus-fuel variant can reuse the loop). -/
def processLine (fmt : Chars → Chars) (st : MdState) (line : Chars) : MdState :=
  let stripped := pyStrip line
  if ['`', '`', '`'].isPrefixOf stripped then
    if st.in_code_block then
      { st with
        html_lines := st.html_lines ++
          [['<', 'p', 'r', 'e', '>', '<', 'c', 'o', 'd', 'e', '>'] ++
            joinLines st.code_content ++
            ['<', '/', 'c', 'o', 'd', 'e', '>', '<', '/', 'p', 'r', 'e', '>']],
        code_content := [], in_code_block := false }
    else { st with in_code_block := true }
  else if st.in_code_block then
    { st with code_content := st.code_content ++ [line] }
  else if ['#', '#', '#', ' '].isPrefixOf line then
    let st := closeList st
    { st with html_lines := st.html_lines ++ [tagWrap ['h', '3'] (pyStrip (line.drop 4))] }
  else if ['#', '#', ' '].isPrefixOf line then
    let st := closeList st
    { st with html_lines := st.html_lines ++ [tagWrap ['h', '2'] (pyStrip (line.drop 3))] }
  else if ['#', ' '].isPrefixOf line then
    let st := closeList st
    { st with html_lines := st.html_lines ++ [tagWrap ['h', '2'] (pyStrip (line.drop 2))] }
  else if ['-', ' '].isPrefixOf stripped || ['*', ' '].isPrefixOf stripped then
    let st := openList st
    { st with html_lines := st.html_lines ++ [tagWrap ['l', 'i'] (fmt (stripped.drop 2))] }
  else if isOlItem stripped then
    let st := openList st
    { st with html_lines := st.html_lines ++ [tagWrap ['l', 'i'] (fmt (stripOlMarker stripped))] }
  else if stripped.isEmpty then
    closeList st
  else
    let st := closeList st
    { st with html_lines := st.html_lines ++ [tagWrap ['p'] (fmt line)] }

/-- `markdown_to_html` (lines 285-378). -/
def markdown_to_html (markdown_text : Chars) : Chars :=
  let lines := splitLines markdown_text
  let st := lines.foldl (processLine apply_inline_formatting) ⟨[], false, false, []⟩
  joinLines (closeList st).html_lines

/-- `apply_inline_formatting` with a fuel surplus on each pass. -/
def apply_inline_formattingK (extra : Nat) (text : Chars) : Chars :=
  let text := scanSubK extra boldStepApi text
  let text := scanSubK extra italicStepApi text
  let text := scanSubK extra codeStepApi text
  scanSubK extra apiLinkStep text

/-- `markdown_to_html` with a fuel surplus on each pass. -/
def markdown_to_htmlK (extra : Nat) (markdown_text : Chars) : Chars :=
  let lines := splitLines markdown_text
  let st := lines.foldl (processLine (apply_inline_formattingK extra)) ⟨[], false, false, []⟩
  joinLines (closeList st).html_lines

theorem apply_inline_formattingK_eq (extra : Nat) :
    apply_inline_formattingK extra = apply_inline_formatting := by
  funext text
  rw [apply_inline_formattingK, apply_inline_formatting]
  rw [NotePoster.scanSubK_eq _ boldStepApi_shrinks, NotePoster.scanSubK_eq _ italicStepApi_shrinks,
    NotePoster.scanSubK_eq _ codeStepApi_shrinks, NotePoster.scanSubK_eq _ apiLinkStep_shrinks]

theorem markdown_to_htmlK_eq_api (extra : Nat) (markdown_text : Chars) :
    markdown_to_htmlK extra markdown_text = markdown_to_html markdown_text := by
  rw [markdown_to_htmlK, markdown_to_html, apply_inline_formattingK_eq]

end NoteDraftPoster

/-!
# Exceptions

The Python exception classes observable by the two scripts.
`requests.exceptions.HTTPError` is a subclass of
`requests.exceptions.RequestException`; the wrapper's `except` clauses test
`HTTPError` first, so the two constructors here are disjoint by design
(`requestError` stands for any `RequestException` that is not an
`HTTPError`).  Exceptions of any other class (plain `Exception`,
`FileNotFoundError`, JSON decode errors, Selenium errors) are not caught by
`rate_limited_request` at all. -/

namespace NotePoster

inductive PyExc
  | httpError (status : Nat)
  | requestError (msg : Chars)
  | fileNotFound (msg : Chars)
  | jsonDecodeError
  | seleniumTimeout
  | webDriverError
  | generic (msg : Chars)
deriving DecidableEq, Repr

end NotePoster

namespace NotePoster

/-- Observable browser-side actions of the two Selenium flows.  An action
trace records which effects a run performed, in order. -/
inductive UiAction
  | acquireDriver
  | navigateLogin
  | enterEmail
  | enterPassword
  | clickLogin
  | navigatePost
  | clickTextNote
  | navigateNewNote
  | enterTitle
  | enterBody
  | enterBodyChunks
  | clickEyecatch
  | uploadEyecatchFile
  | warnSkipImage
  | clickPublish
  | selectPaid
  | enterPrice (price : Nat)
  | clickAreaSetting
  | clickConfirm
  | clickFinalPublish
  | waitManualPublish
  | promptBeforeQuit
  | releaseDriver
deriving DecidableEq, Repr

end NotePoster

/-!
# `scripts/note_draft_poster.py` — rate-limited wrapper and posting flow
-/

namespace NoteDraftPoster

open NotePoster

/-- Line 44. -/
def REQUEST_INTERVAL : ℚ := 2

/-- Line 45. -/
def MAX_RETRIES : Nat := 3

/-- Line 46. -/
def RETRY_BACKOFF : ℚ := 2

/-- Exceptions the wrapper retries on: HTTP 429, or any transport-level
`RequestException` (lines 100-112). -/
def retryable : PyExc → Bool
  | .httpError s => s == 429
  | .requestError _ => true
  | _ => false

/-- One observed execution of a wrapped unit of work: its result, the
sleeps performed (in seconds, as exact rationals: all the float values
involved are small powers of two and therefore exact), and the number of
invocations of the wrapped function. -/
structure RLRun (α : Type) where
  result : Except PyExc (Option α)
  sleeps : List ℚ
  calls : Nat
deriving Repr

/-- The retry loop of `rate_limited_request` (lines 96-116): `f attempt` is
the outcome of the `attempt`-th invocation of the wrapped function,
`rem` the remaining iterations of `for attempt in range(MAX_RETRIES)`,
`last` the `last_error` variable.  A non-429 `HTTPError` is re-raised at
once; other exception classes are not caught by the two `except` clauses
and also propagate at once; 429 and other `RequestException`s sleep
`REQUEST_INTERVAL * RETRY_BACKOFF ** attempt` and retry.  After the loop,
`last_error` is re-raised (`return None` if there was none). -/
def rlLoop (f : Nat → Except PyExc α) : Nat → Nat → Option PyExc → RLRun α
  | _, 0, last =>
    match last with
    | some e => ⟨.error e, [], 0⟩
    | none => ⟨.ok none, [], 0⟩
  | attempt, rem + 1, _last =>
    match f attempt with
    | .ok v => ⟨.ok (some v), [], 1⟩
    | .error e =>
      if retryable e then
        let w := REQUEST_INTERVAL * RETRY_BACKOFF ^ attempt
        let r := rlLoop f (attempt + 1) rem (some e)
        ⟨r.result, w :: r.sleeps, r.calls + 1⟩
      else ⟨.error e, [], 1⟩

/-- `rate_limited_request` (lines 90-118): the fixed pacing sleep of
line 94 precedes the retry loop. -/
def rate_limited_request (f : Nat → Except PyExc α) : RLRun α :=
  let r := rlLoop f 0 MAX_RETRIES none
  ⟨r.result, REQUEST_INTERVAL :: r.sleeps, r.calls⟩

theorem rlLoop_zero (f : Nat → Except PyExc α) (attempt : Nat) (last : Option PyExc) :
    rlLoop f attempt 0 last =
      match last with
      | some e => ⟨.error e, [], 0⟩
      | none => ⟨.ok none, [], 0⟩ := rfl

theorem rlLoop_ok {α : Type} {f : Nat → Except PyExc α} {attempt : Nat} {v : α}
    (h : f attempt = .ok v) (rem : Nat) (last : Option PyExc) :
    rlLoop f attempt (rem + 1) last = ⟨.ok (some v), [], 1⟩ := by
  simp [rlLoop, h]

theorem rlLoop_retry {α : Type} {f : Nat → Except PyExc α} {attempt : Nat} {e : PyExc}
    (h : f attempt = .error e) (hr : retryable e = true) (rem : Nat) (last : Option PyExc) :
    rlLoop f attempt (rem + 1) last =
      ⟨(rlLoop f (attempt + 1) rem (some e)).result,
       (REQUEST_INTERVAL * RETRY_BACKOFF ^ attempt) :: (rlLoop f (attempt + 1) rem (some e)).sleeps,
       (rlLoop f (attempt + 1) rem (some e)).calls + 1⟩ := by
  simp [rlLoop, h, hr]

theorem rlLoop_raise {α : Type} {f : Nat → Except PyExc α} {attempt : Nat} {e : PyExc}
    (h : f attempt = .error e) (hr : retryable e = false) (rem : Nat) (last : Option PyExc) :
    rlLoop f attempt (rem + 1) last = ⟨.error e, [], 1⟩ := by
  simp [rlLoop, h, hr]

/-- The loop under `N` retryable failures followed by a success: it returns
the success, performs `N + 1` calls, and sleeps the exponential backoff
sequence. -/
theorem rlLoop_retries_then_ok {α : Type} (f : Nat → Except PyExc α) (v : α) :
    ∀ (N attempt rem : Nat) (last : Option PyExc), N < rem →
      (∀ i, i < N → ∃ e, f (attempt + i) = .error e ∧ retryable e = true) →
      f (attempt + N) = .ok v →
      rlLoop f attempt rem last =
        ⟨.ok (some v),
         (List.range N).map (fun i => REQUEST_INTERVAL * RETRY_BACKOFF ^ (attempt + i)),
         N + 1⟩ := by
  intro N
  induction N with
  | zero =>
    intro attempt rem last hrem _hfail hsucc
    cases rem with
    | zero => omega
    | succ rem =>
      rw [rlLoop_ok (by simpa using hsucc) rem last]
      simp
  | succ N ihN =>
    intro attempt rem last hrem hfail hsucc
    cases rem with
    | zero => omega
    | succ rem =>
      obtain ⟨e0, he0, hr0⟩ := hfail 0 (Nat.succ_pos N)
      rw [rlLoop_retry (by simpa using he0) hr0 rem last]
      have hrec := ihN (attempt + 1) rem (some e0) (by omega)
        (fun i hi => by
          obtain ⟨e, he, hr⟩ := hfail (i + 1) (by omega)
          exact ⟨e, by rw [show attempt + 1 + i = attempt + (i + 1) by omega]; exact he, hr⟩)
        (by rw [show attempt + 1 + N = attempt + (N + 1) by omega]; exact hsucc)
      rw [hrec]
      simp only [RLRun.mk.injEq]
      refine ⟨trivial, ?_, trivial⟩
      rw [List.range_succ_eq_map]
      simp only [List.map_cons, List.map_map, List.cons.injEq]
      refine ⟨by simp, ?_⟩
      apply List.map_congr_left
      intro i _
      simp only [Function.comp_apply]
      rw [show attempt + 1 + i = attempt + (i + 1) by omega]

/-- Upper bound on the sleeps of the loop: the exponential backoff sum. -/
theorem rlLoop_sleeps_le {α : Type} (f : Nat → Except PyExc α) :
    ∀ (rem attempt : Nat) (last : Option PyExc),
      (rlLoop f attempt rem last).sleeps.sum ≤
        ((List.range rem).map (fun i => REQUEST_INTERVAL * RETRY_BACKOFF ^ (attempt + i))).sum := by
  intro rem
  induction rem with
  | zero =>
    intro attempt last
    cases last <;> simp [rlLoop_zero]
  | succ rem ihr =>
    intro attempt last
    have hnn : 0 ≤ ((List.range (rem + 1)).map
        (fun i => REQUEST_INTERVAL * RETRY_BACKOFF ^ (attempt + i))).sum := by
      apply List.sum_nonneg
      intro x hx
      obtain ⟨i, -, rfl⟩ := List.mem_map.mp hx
      have h1 : (0 : ℚ) ≤ REQUEST_INTERVAL := by norm_num [REQUEST_INTERVAL]
      have h2 : (0 : ℚ) ≤ RETRY_BACKOFF ^ (attempt + i) := by positivity
      exact mul_nonneg h1 h2
    cases hf : f attempt with
    | ok v => rw [rlLoop_ok hf rem last]; simpa using hnn
    | error e =>
      cases hr : retryable e with
      | false => rw [rlLoop_raise hf hr rem last]; simpa using hnn
      | true =>
        rw [rlLoop_retry hf hr rem last]
        rw [List.range_succ_eq_map]
        simp only [List.map_cons, List.map_map, List.sum_cons]
        have := ihr (attempt + 1) (some e)
        refine add_le_add (by simp) ?_
        refine le_trans this (le_of_eq ?_)
        apply congrArg
        apply List.map_congr_left
        intro i _
        simp only [Function.comp_apply]
        rw [show attempt + 1 + i = attempt + (i + 1) by omega]

/-!
## `get_note_cookies` (lines 125-278)

The Selenium login of the API-driven script.  The driver is created inside
`try`; `finally: if driver: driver.quit()` releases it on every exit,
including the raising paths.  If `webdriver.Chrome(...)` itself raises, the
`except WebDriverException` handler logs and re-raises with `driver` still
`None`, so nothing is released (and nothing was acquired).  Selector
candidates are each tried under a bare `except: continue`, so element
lookup failures surface only as the "not found" `raise Exception(...)`
paths, modelled by the environment's flags.
-/

structure LoginEnv where
  driverStarts : Bool
  navOk : Bool
  emailFound : Bool
  passwordFound : Bool
  buttonFound : Bool
  loginOk : Bool
  cookies : List (Chars × Chars)

def emailNotFoundMsg : Chars :=
  ['メ', 'ー', 'ル', 'ア', 'ド', 'レ', 'ス', '入', '力', '欄', 'が', '見', 'つ', 'か', 'り', 'ま', 'せ', 'ん']

def passwordNotFoundMsg : Chars :=
  ['パ', 'ス', 'ワ', 'ー', 'ド', '入', '力', '欄', 'が', '見', 'つ', 'か', 'り', 'ま', 'せ', 'ん']

def buttonNotFoundMsg : Chars :=
  ['ロ', 'グ', 'イ', 'ン', 'ボ', 'タ', 'ン', 'が', '見', 'つ', 'か', 'り', 'ま', 'せ', 'ん']

def loginFailedMsg : Chars :=
  ['ロ', 'グ', 'イ', 'ン', 'に', '失', '敗', 'し', 'ま', 'し', 'た']

/-- The `try` body of `get_note_cookies` (lines 150-268). -/
def loginBody (env : LoginEnv) : Except PyExc (List (Chars × Chars)) × List UiAction :=
  if ¬env.navOk then (.error .webDriverError, [.navigateLogin])
  else if ¬env.emailFound then (.error (.generic emailNotFoundMsg), [.navigateLogin])
  else if ¬env.passwordFound then
    (.error (.generic passwordNotFoundMsg), [.navigateLogin, .enterEmail])
  else if ¬env.buttonFound then
    (.error (.generic buttonNotFoundMsg), [.navigateLogin, .enterEmail, .enterPassword])
  else if ¬env.loginOk then
    (.error (.generic loginFailedMsg), [.navigateLogin, .enterEmail, .enterPassword, .clickLogin])
  else (.ok env.cookies, [.navigateLogin, .enterEmail, .enterPassword, .clickLogin])

/-- `get_note_cookies` (lines 125-278) with its `try/except/finally`
structure: the `finally` appends the `driver.quit()` whenever the driver
was created, on success and on every raising path alike. -/
def get_note_cookies (env : LoginEnv) : Except PyExc (List (Chars × Chars)) × List UiAction :=
  if ¬env.driverStarts then (.error .webDriverError, [])
  else
    let r := loginBody env
    (r.1, .acquireDriver :: r.2 ++ [.releaseDriver])

/-!
## JSON values

Mutual inductive so that all recursions stay structural (kernel-evaluable).
-/

mutual
inductive JVal
  | s (v : Chars)
  | n (v : Int)
  | obj (fields : JFields)
deriving DecidableEq, Repr
inductive JFields
  | nil
  | cons (k : Chars) (v : JVal) (rest : JFields)
deriving DecidableEq, Repr
end

def jlookup : JFields → Chars → Option JVal
  | .nil, _ => none
  | .cons k' v rest, k => if k' = k then some v else jlookup rest k

/-- `dict.get(k, dflt)`. -/
def jget (o : JFields) (k : Chars) (dflt : JVal) : JVal :=
  (jlookup o k).getD dflt

mutual
/-- Python `repr` of a JSON value (`str` and `repr` agree on dicts and
numbers; they differ only on top-level strings, handled in `pyStr`). -/
def pyRepr : JVal → Chars
  | .s v => '\'' :: (v ++ ['\''])
  | .n v => (toString v).data
  | .obj fs => '{' :: (pyReprFields fs ++ ['}'])
def pyReprFields : JFields → Chars
  | .nil => []
  | .cons k v .nil => '\'' :: (k ++ '\'' :: ':' :: ' ' :: pyRepr v)
  | .cons k v (.cons k2 v2 rest) =>
    '\'' :: (k ++ '\'' :: ':' :: ' ' :: pyRepr v) ++ ',' :: ' ' :: pyReprFields (.cons k2 v2 rest)
end

/-- Python `str()` of a JSON value (used for `str(data.get("id", ""))`;
`article_key = data.get("key", "")` is not passed through `str()` in the
source, but is rendered identically by the URL f-string for the string and
number cases). -/
def pyStr : JVal → Chars
  | .s v => v
  | .n v => (toString v).data
  | .obj fs => '{' :: (pyReprFields fs ++ ['}'])

def dataKey : Chars := ['d', 'a', 't', 'a']

def idKey : Chars := ['i', 'd']

def keyKey : Chars := ['k', 'e', 'y']

def urlKey : Chars := ['u', 'r', 'l']

/-- `if "data" in data: data = data["data"]` (lines 470-471).  When the
`data` field holds a non-dict, the following `data.get(...)` raises an
`AttributeError`, which the per-attempt `except Exception` catches. -/
def unwrapData (o : JFields) : Except PyExc JFields :=
  match jlookup o dataKey with
  | none => .ok o
  | some (.obj o2) => .ok o2
  | some _ => .error (.generic ['A', 't', 't', 'r', 'i', 'b', 'u', 't', 'e', 'E', 'r', 'r', 'o', 'r'])

/-!
## `create_article` (lines 414-491)
-/

/-- An HTTP response as the script observes it: the status code and the
parsed JSON body (`none` when `response.json()` raises). -/
structure ApiResponse where
  status : Nat
  body : Option JFields
deriving DecidableEq, Repr

/-- Outcome of one `session.post`/`session.put` call: a response, or an
exception raised by the call itself. -/
inductive PostOutcome
  | resp (r : ApiResponse)
  | exc (e : PyExc)
deriving DecidableEq, Repr

/-- The three request shapes of `payloads_to_try` (lines 432-456).  Every
shape carries `"status": "draft"`. -/
inductive PayloadShape
  | note
  | simple
  | text_note
deriving DecidableEq, Repr

structure NotePayload where
  shape : PayloadShape
  name : Chars
  body : Chars
  status : Chars
deriving DecidableEq, Repr

def draftStatus : Chars := ['d', 'r', 'a', 'f', 't']

def payloads_to_try (title html : Chars) : List NotePayload :=
  [⟨.note, title, html, draftStatus⟩,
   ⟨.simple, title, html, draftStatus⟩,
   ⟨.text_note, title, html, draftStatus⟩]

/-- Why one payload attempt failed: a response with a non-success status
(`last_error = response`), or an exception raised inside the `try`
(`last_error = e`; this includes transport errors of `session.post`,
JSON decode errors, and the `AttributeError` of `unwrapData` — all caught
by the per-attempt `except Exception`). -/
inductive AttemptFail
  | httpResp (status : Nat)
  | raised (e : PyExc)
deriving DecidableEq, Repr

/-- One iteration of the payload loop (lines 459-482). -/
def processAttempt (o : PostOutcome) : Except AttemptFail (Chars × Chars) :=
  match o with
  | .exc e => .error (.raised e)
  | .resp r =>
    if r.status = 200 ∨ r.status = 201 then
      match r.body with
      | none => .error (.raised .jsonDecodeError)
      | some b =>
        match unwrapData b with
        | .error e => .error (.raised e)
        | .ok d => .ok (pyStr (jget d idKey (.s [])), pyStr (jget d keyKey (.s [])))
    else .error (.httpResp r.status)

/-- Python `f'{last_error}'` — `repr` of a `requests.Response` is
`<Response [STATUS]>`; an exception renders as its message. -/
def renderPyExc : PyExc → Chars
  | .generic m => m
  | .requestError m => m
  | .fileNotFound m => m
  | .httpError s => (toString s).data
  | .jsonDecodeError => ['J', 'S', 'O', 'N', 'D', 'e', 'c', 'o', 'd', 'e', 'E', 'r', 'r', 'o', 'r']
  | .seleniumTimeout => ['T', 'i', 'm', 'e', 'o', 'u', 't']
  | .webDriverError => ['W', 'e', 'b', 'D', 'r', 'i', 'v', 'e', 'r']

def renderFail : AttemptFail → Chars
  | .httpResp s => ['<', 'R', 'e', 's', 'p', 'o', 'n', 's', 'e', ' ', '['] ++
      (toString s).data ++ [']', '>']
  | .raised e => renderPyExc e

/-- `記事作成に失敗しました` (lines 489 and 491). -/
def createFailPrefix : Chars :=
  ['記', '事', '作', '成', 'に', '失', '敗', 'し', 'ま', 'し', 'た']

/-- The message of the exception raised when every payload shape failed:
`f"記事作成に失敗しました: {last_error}"` — it interpolates only
`last_error`, the failure of the final attempt. -/
def createFailMsg (last : AttemptFail) : Chars :=
  createFailPrefix ++ ':' :: ' ' :: renderFail last

/-- The log lines the loop produces (`logger.warning` per failed attempt,
`logger.info` on success). -/
inductive LogEntry
  | warnFormatFailed (i status : Nat)
  | warnFormatExc (i : Nat)
  | infoCreated (id key : Chars)
deriving DecidableEq, Repr

def logOfFail (i : Nat) : AttemptFail → LogEntry
  | .httpResp s => .warnFormatFailed i s
  | .raised _ => .warnFormatExc i

/-- The payload loop of `create_article` (lines 458-491): try each shape in
order; return on the first success; otherwise remember `last_error` and,
after the loop, raise the aggregate exception built from it alone. -/
def createLoop (env : Nat → PostOutcome) :
    Nat → List NotePayload → Option AttemptFail → Except PyExc (Chars × Chars) × List LogEntry
  | _, [], last =>
    match last with
    | some l => (.error (.generic (createFailMsg l)), [])
    | none => (.error (.generic createFailPrefix), [])
  | i, _p :: ps, _ =>
    match processAttempt (env i) with
    | .ok ik => (.ok ik, [.infoCreated ik.1 ik.2])
    | .error f =>
      let rec' := createLoop env (i + 1) ps (some f)
      (rec'.1, logOfFail i f :: rec'.2)

/-- `create_article` (lines 414-491).  `env i` is the outcome of posting the
`i`-th payload shape. -/
def create_article (env : Nat → PostOutcome) (title md : Chars) :
    Except PyExc (Chars × Chars) × List LogEntry :=
  createLoop env 0 (payloads_to_try title (markdown_to_html md)) none

/-!
## `upload_image` (lines 494-533) and `update_article_draft` (lines 536-583)
-/

/-- `response.raise_for_status()`: raises `HTTPError` exactly for
4xx/5xx statuses. -/
def raise_for_status (s : Nat) : Except PyExc Unit :=
  if 400 ≤ s ∧ s < 600 then .error (.httpError s) else .ok ()

def fileNotFoundMsg : Chars :=
  ['画', '像', 'フ', 'ァ', 'イ', 'ル', 'が', '見', 'つ', 'か', 'り', 'ま', 'せ', 'ん']

/-- One invocation of the body of `upload_image`: missing file raises
`FileNotFoundError` (line 508); a non-success status logs and calls
`raise_for_status` (lines 523-526); then the JSON body is read. -/
def upload_image_once (imageExists : Bool) (o : PostOutcome) : Except PyExc (Chars × Chars) :=
  if ¬imageExists then .error (.fileNotFound fileNotFoundMsg)
  else
    match o with
    | .exc e => .error e
    | .resp r =>
      match (if ¬(r.status = 200 ∨ r.status = 201) then raise_for_status r.status else .ok ()) with
      | .error e => .error e
      | .ok _ =>
        match r.body with
        | none => .error .jsonDecodeError
        | some b => .ok (pyStr (jget b keyKey (.s [])), pyStr (jget b urlKey (.s [])))

/-- The PUT payload of `update_article_draft` (lines 562-570): the status is
always the literal `"draft"`; the eyecatch key is added only when present. -/
structure UpdatePayload where
  name : Chars
  body : Chars
  status : Chars
  eyecatch_image_key : Option Chars
deriving DecidableEq, Repr

def update_payload (title html : Chars) (imageKey : Option Chars) : UpdatePayload :=
  ⟨title, html, draftStatus, imageKey⟩

/-- One invocation of the body of `update_article_draft`. -/
def update_article_draft_once (o : PostOutcome) : Except PyExc Bool :=
  match o with
  | .exc e => .error e
  | .resp r =>
    match (if ¬(r.status = 200 ∨ r.status = 201) then raise_for_status r.status else .ok ()) with
    | .error e => .error e
    | .ok _ => .ok true

/-!
## `post_to_note` (lines 590-646)
-/

/-- The steps the orchestrator reaches, in order. -/
inductive ApiStep
  | stepLogin
  | stepCreate
  | stepUpload
  | stepUpdate
  | stepDone
deriving DecidableEq, Repr

/-- The environment of one posting run: outcomes of the external calls.
For the three functions wrapped by `rate_limited_request`, the outer index
is the wrapper's attempt number. -/
structure PostEnv where
  login : Except PyExc (List (Chars × Chars))
  createEnv : Nat → Nat → PostOutcome
  imageExists : Bool
  uploadEnv : Nat → PostOutcome
  updateEnv : Nat → PostOutcome

def BASE_URL : Chars :=
  ['h', 't', 't', 'p', 's', ':', '/', '/', 'n', 'o', 't', 'e', '.', 'c', 'o', 'm']

def defaultUserName : Chars :=
  ['y', 'o', 'u', 'r', '_', 'u', 's', 'e', 'r', 'n', 'a', 'm', 'e']

/-- `username = NOTE_USER_NAME or "your_username"` (line 637). -/
def userNameOr (u : Chars) : Chars :=
  if u = [] then defaultUserName else u

/-- `f"{BASE_URL}/{username}/n/{article_key}"` (line 638). -/
def article_url (noteUserName key : Chars) : Chars :=
  BASE_URL ++ '/' :: (userNameOr noteUserName ++ '/' :: 'n' :: '/' :: key)

/-- `TypeError` from unpacking `None` — unreachable with `MAX_RETRIES = 3`,
kept for a faithful treatment of the wrapper's `return None` path. -/
def typeErrorMsg : Chars := ['T', 'y', 'p', 'e', 'E', 'r', 'r', 'o', 'r']

/-- `post_to_note` (lines 590-646): login, create, optional upload, update,
build the article URL.  Every exception of a step propagates (the function
has no handler; `safe_post_to_note` catches at the boundary).  The second
component records which steps the run reached. -/
def post_to_note (env : PostEnv) (noteUserName title md : Chars) (imagePath : Option Chars) :
    Except PyExc Chars × List ApiStep :=
  match env.login with
  | .error e => (.error e, [.stepLogin])
  | .ok _cookies =>
    let createRun := rate_limited_request (fun k => (create_article (env.createEnv k) title md).1)
    match createRun.result with
    | .error e => (.error e, [.stepLogin, .stepCreate])
    | .ok none => (.error (.generic typeErrorMsg), [.stepLogin, .stepCreate])
    | .ok (some ik) =>
      let afterUpload : Except PyExc (Option Chars) × List ApiStep :=
        match imagePath with
        | none => (.ok none, [.stepLogin, .stepCreate])
        | some _p =>
          let upRun := rate_limited_request
            (fun k => upload_image_once env.imageExists (env.uploadEnv k))
          match upRun.result with
          | .error e => (.error e, [.stepLogin, .stepCreate, .stepUpload])
          | .ok none => (.error (.generic typeErrorMsg), [.stepLogin, .stepCreate, .stepUpload])
          | .ok (some ku) => (.ok (some ku.1), [.stepLogin, .stepCreate, .stepUpload])
      match afterUpload with
      | (.error e, steps) => (.error e, steps)
      | (.ok _imageKey, steps) =>
        let updRun := rate_limited_request (fun k => update_article_draft_once (env.updateEnv k))
        match updRun.result with
        | .error e => (.error e, steps ++ [.stepUpdate])
        | .ok none => (.error (.generic typeErrorMsg), steps ++ [.stepUpdate])
        | .ok (some _) => (.ok (article_url noteUserName ik.2), steps ++ [.stepUpdate, .stepDone])

end NoteDraftPoster

/-!
# `scripts/note_draft_poster_selenium.py` — posting flow

`post_to_note_selenium` (lines 127-759).  The function takes no publish
flag of any kind: its parameters are credentials, title, Markdown body, an
optional image path and the headless switch.  Steps 6-10 (lines 457-723)
nevertheless look for a publish button, click it when visible, select a
paid tier, set the price to 480, confirm the paid boundary, and click the
final publish control.  Element lookups are individually guarded, so a
missing element never aborts the run; `except TimeoutException /
WebDriverException / Exception` convert any raise into `return None`; the
`finally` block (lines 744-759) waits for the operator when not headless
(`EOFError` from `input()` is caught) and then always calls
`driver.quit()` whenever the driver was created.
-/

namespace NoteDraftPosterSelenium

open NotePoster

/-- Which UI affordances the live page exposes to this run. -/
structure UiEnv where
  driverStarts : Bool
  loginFieldsFound : Bool
  loginOk : Bool
  textNoteButton : Bool
  titleFound : Bool
  bodyFound : Bool
  jsInputWorks : Bool
  imageExists : Bool
  eyecatchFound : Bool
  fileInputFound : Bool
  publishVisible : Bool
  paidVisible : Bool
  priceInputVisible : Bool
  areaSettingVisible : Bool
  confirmVisible : Bool
  finalPublishVisible : Bool
  currentUrl : Chars

/-- The `try` body of `post_to_note_selenium` (lines 153-733), step by
step.  Steps 3-5 tolerate missing elements (log and continue); Step 6's
publish click gates Steps 7-10 exactly as `publish_clicked` does. -/
def seleniumBody (env : UiEnv) (imagePath : Option Chars) : Option Chars × List UiAction :=
  if ¬env.loginFieldsFound then (none, [.navigateLogin])
  else if ¬env.loginOk then (none, [.navigateLogin, .enterEmail, .enterPassword, .clickLogin])
  else
    let s2 : List UiAction :=
      if env.textNoteButton then [.navigatePost, .clickTextNote]
      else [.navigatePost, .navigateNewNote]
    let s3 : List UiAction := if env.titleFound then [.enterTitle] else []
    let s4 : List UiAction :=
      if env.bodyFound then (if env.jsInputWorks then [.enterBody] else [.enterBodyChunks])
      else []
    let s5 : List UiAction :=
      match imagePath with
      | none => []
      | some _ =>
        if env.imageExists then
          if env.eyecatchFound then
            if env.fileInputFound then [.clickEyecatch, .uploadEyecatchFile]
            else [.clickEyecatch, .warnSkipImage]
          else [.warnSkipImage]
        else []
    let pubTrace : List UiAction :=
      if env.publishVisible then
        let s7 : List UiAction :=
          if env.paidVisible then
            if env.priceInputVisible then [.selectPaid, .enterPrice 480] else [.selectPaid]
          else []
        let s8 : List UiAction := if env.areaSettingVisible then [.clickAreaSetting] else []
        let s9 : List UiAction :=
          if env.areaSettingVisible then
            (if env.confirmVisible then [.clickConfirm] else [])
          else []
        let s10 : List UiAction :=
          if env.finalPublishVisible then [.clickFinalPublish] else [.waitManualPublish]
        .clickPublish :: (s7 ++ s8 ++ s9 ++ s10)
      else []
    (some env.currentUrl,
      [.navigateLogin, .enterEmail, .enterPassword, .clickLogin] ++
        s2 ++ s3 ++ s4 ++ s5 ++ pubTrace)

/-- `post_to_note_selenium` (lines 127-759).  If `webdriver.Chrome` raises,
the `except WebDriverException` handler returns `None` with the driver
still unset, so the `finally` releases nothing; otherwise the `finally`
(lines 744-759) runs on every exit of the body — the operator prompt in
non-headless mode (its `EOFError` is caught), then `driver.quit()`. -/
def post_to_note_selenium (env : UiEnv) (imagePath : Option Chars) (headless : Bool) :
    Option Chars × List UiAction :=
  if ¬env.driverStarts then (none, [])
  else
    let r := seleniumBody env imagePath
    (r.1, .acquireDriver :: r.2 ++
      (if headless then [] else [.promptBeforeQuit]) ++ [.releaseDriver])

end NoteDraftPosterSelenium

/-!
# Claims
-/

section Claims

open NotePoster

/-- C2.  For the rate-limited wrapper `rate_limited_request`: a unit of
work that fails `N` times (`N < MAX_RETRIES`) with a retryable signal
(HTTP 429 or a transport-level request error) and then succeeds makes the
wrapper return the success value after exactly `N` retries (`N + 1`
calls), with the backoff sleeps between attempts forming a strictly
increasing sequence; a unit of work that fails with a non-retryable signal
(an HTTP error whose status is not 429) is propagated on the first
attempt, with no sleep beyond the initial fixed pacing delay. -/
theorem c2_rate_limited_retry_and_backoff {α : Type} :
    (∀ (f : Nat → Except NotePoster.PyExc α) (N : Nat) (v : α),
      N < NoteDraftPoster.MAX_RETRIES →
      (∀ i, i < N → ∃ e, f i = .error e ∧ NoteDraftPoster.retryable e = true) →
      f N = .ok v →
      (NoteDraftPoster.rate_limited_request f).result = .ok (some v) ∧
      (NoteDraftPoster.rate_limited_request f).calls = N + 1 ∧
      (NoteDraftPoster.rate_limited_request f).sleeps =
        NoteDraftPoster.REQUEST_INTERVAL ::
          (List.range N).map
            (fun i => NoteDraftPoster.REQUEST_INTERVAL * NoteDraftPoster.RETRY_BACKOFF ^ i) ∧
      (NoteDraftPoster.rate_limited_request f).sleeps.tail.Chain' (· < ·)) ∧
    (∀ (f : Nat → Except NotePoster.PyExc α) (s : Nat),
      s ≠ 429 → f 0 = .error (.httpError s) →
      (NoteDraftPoster.rate_limited_request f).result = .error (.httpError s) ∧
      (NoteDraftPoster.rate_limited_request f).sleeps = [NoteDraftPoster.REQUEST_INTERVAL] ∧
      (NoteDraftPoster.rate_limited_request f).calls = 1) := by
  constructor
  · intro f N v hN hfail hsucc
    have hloop := NoteDraftPoster.rlLoop_retries_then_ok f v N 0 NoteDraftPoster.MAX_RETRIES none
      hN (fun i hi => by simpa using hfail i hi) (by simpa using hsucc)
    have hrun : NoteDraftPoster.rate_limited_request f =
        ⟨.ok (some v),
         NoteDraftPoster.REQUEST_INTERVAL ::
           (List.range N).map
             (fun i => NoteDraftPoster.REQUEST_INTERVAL * NoteDraftPoster.RETRY_BACKOFF ^ i),
         N + 1⟩ := by
      rw [NoteDraftPoster.rate_limited_request, hloop]
      simp
    refine ⟨by rw [hrun], by rw [hrun], by rw [hrun], ?_⟩
    rw [hrun]
    simp only [List.tail_cons]
    have hmono : ∀ i j : Nat, i < j →
        NoteDraftPoster.REQUEST_INTERVAL * NoteDraftPoster.RETRY_BACKOFF ^ i <
          NoteDraftPoster.REQUEST_INTERVAL * NoteDraftPoster.RETRY_BACKOFF ^ j := by
      intro i j hij
      have h2 : (1 : ℚ) < NoteDraftPoster.RETRY_BACKOFF := by
        norm_num [NoteDraftPoster.RETRY_BACKOFF]
      have hpow : NoteDraftPoster.RETRY_BACKOFF ^ i < NoteDraftPoster.RETRY_BACKOFF ^ j :=
        pow_lt_pow_right₀ h2 hij
      have hpos : (0 : ℚ) < NoteDraftPoster.REQUEST_INTERVAL := by
        norm_num [NoteDraftPoster.REQUEST_INTERVAL]
      exact (mul_lt_mul_left hpos).mpr hpow
    have hpw : ((List.range N).map
        (fun i => NoteDraftPoster.REQUEST_INTERVAL * NoteDraftPoster.RETRY_BACKOFF ^ i)).Pairwise
          (· < ·) := by
      refine List.pairwise_map.mpr ?_
      exact (List.pairwise_lt_range N).imp (fun hij => hmono _ _ hij)
    exact hpw.chain'
  · intro f s hs h0
    have hr : NoteDraftPoster.retryable (.httpError s) = false := by
      simp [NoteDraftPoster.retryable, hs]
    have hloop := NoteDraftPoster.rlLoop_raise (f := f) h0 hr 2 none
    have hrun : NoteDraftPoster.rate_limited_request f =
        ⟨.error (.httpError s), [NoteDraftPoster.REQUEST_INTERVAL], 1⟩ := by
      rw [NoteDraftPoster.rate_limited_request,
        show NoteDraftPoster.MAX_RETRIES = 2 + 1 from rfl, hloop]
    exact ⟨by rw [hrun], by rw [hrun], by rw [hrun]⟩

/-- Witness for C2 at a concrete run: two retryable failures (a 429, then
a transport error), then success with value 5; and a non-retryable 404 on
a separate run. -/
theorem c2_rate_limited_retry_and_backoff_witness :
    ((NoteDraftPoster.rate_limited_request (fun i =>
        if i = 0 then .error (.httpError 429)
        else if i = 1 then .error (.requestError [])
        else (.ok 5 : Except NotePoster.PyExc Nat))).result = .ok (some 5) ∧
     (NoteDraftPoster.rate_limited_request (fun i =>
        if i = 0 then .error (.httpError 429)
        else if i = 1 then .error (.requestError [])
        else (.ok 5 : Except NotePoster.PyExc Nat))).calls = 2 + 1 ∧
     (NoteDraftPoster.rate_limited_request (fun i =>
        if i = 0 then .error (.httpError 429)
        else if i = 1 then .error (.requestError [])
        else (.ok 5 : Except NotePoster.PyExc Nat))).sleeps =
       NoteDraftPoster.REQUEST_INTERVAL ::
         (List.range 2).map
           (fun i => NoteDraftPoster.REQUEST_INTERVAL * NoteDraftPoster.RETRY_BACKOFF ^ i) ∧
     (NoteDraftPoster.rate_limited_request (fun i =>
        if i = 0 then .error (.httpError 429)
        else if i = 1 then .error (.requestError [])
        else (.ok 5 : Except NotePoster.PyExc Nat))).sleeps.tail.Chain' (· < ·)) ∧
    ((NoteDraftPoster.rate_limited_request (fun _ =>
        (.error (.httpError 404) : Except NotePoster.PyExc Nat))).result =
          .error (.httpError 404) ∧
     (NoteDraftPoster.rate_limited_request (fun _ =>
        (.error (.httpError 404) : Except NotePoster.PyExc Nat))).sleeps =
          [NoteDraftPoster.REQUEST_INTERVAL] ∧
     (NoteDraftPoster.rate_limited_request (fun _ =>
        (.error (.httpError 404) : Except NotePoster.PyExc Nat))).calls = 1) := by
  constructor
  · exact (c2_rate_limited_retry_and_backoff (α := Nat)).1 _ 2 5 (by decide)
      (by
        intro i hi
        interval_cases i
        · exact ⟨.httpError 429, rfl, rfl⟩
        · exact ⟨.requestError [], rfl, rfl⟩)
      rfl
  · exact (c2_rate_limited_retry_and_backoff (α := Nat)).2 _ 404 (by decide) rfl

/-- C7 counterexample.  The claimed bound is
`baseDelay·Σ(backoffMultiplier^i) for i in [0, maxAttempts)` = 2·(1+2+4)
= 14 seconds, but a run whose three attempts all fail with HTTP 429 sleeps
2 (initial pacing) + 2 + 4 + 8 = 16 seconds: the wrapper sleeps the fixed
pacing delay before the first attempt and also sleeps after the final
failed attempt, so the claimed bound is exceeded. -/
theorem c7_sleep_exceeds_claimed_bound :
    (NoteDraftPoster.rate_limited_request (fun _ =>
       (.error (.httpError 429) : Except NotePoster.PyExc Unit))).sleeps.sum = 16 ∧
    NoteDraftPoster.REQUEST_INTERVAL *
      (((List.range NoteDraftPoster.MAX_RETRIES).map
        (fun i => NoteDraftPoster.RETRY_BACKOFF ^ i)).sum) = 14 ∧
    ¬ (NoteDraftPoster.rate_limited_request (fun _ =>
         (.error (.httpError 429) : Except NotePoster.PyExc Unit))).sleeps.sum ≤
       NoteDraftPoster.REQUEST_INTERVAL *
         (((List.range NoteDraftPoster.MAX_RETRIES).map
           (fun i => NoteDraftPoster.RETRY_BACKOFF ^ i)).sum) := by
  refine ⟨?_, ?_, ?_⟩ <;>
    norm_num [NoteDraftPoster.rate_limited_request, NoteDraftPoster.MAX_RETRIES,
      NoteDraftPoster.rlLoop, NoteDraftPoster.retryable, NoteDraftPoster.REQUEST_INTERVAL,
      NoteDraftPoster.RETRY_BACKOFF, List.range_succ]

/-- C7 amended.  For every wrapped unit of work, the total sleep performed
by `rate_limited_request` is bounded by the initial pacing delay plus the
backoff sum: `baseDelay + baseDelay·Σ(backoffMultiplier^i)` for
`i in [0, maxAttempts)`, i.e. 16 seconds with the script's constants. -/
theorem c7_total_sleep_bound {α : Type} (f : Nat → Except NotePoster.PyExc α) :
    (NoteDraftPoster.rate_limited_request f).sleeps.sum ≤
      NoteDraftPoster.REQUEST_INTERVAL +
        NoteDraftPoster.REQUEST_INTERVAL *
          (((List.range NoteDraftPoster.MAX_RETRIES).map
            (fun i => NoteDraftPoster.RETRY_BACKOFF ^ i)).sum) := by
  have hloop := NoteDraftPoster.rlLoop_sleeps_le f NoteDraftPoster.MAX_RETRIES 0 none
  have hsum : ((List.range NoteDraftPoster.MAX_RETRIES).map
      (fun i => NoteDraftPoster.REQUEST_INTERVAL * NoteDraftPoster.RETRY_BACKOFF ^ (0 + i))).sum =
      NoteDraftPoster.REQUEST_INTERVAL *
        (((List.range NoteDraftPoster.MAX_RETRIES).map
          (fun i => NoteDraftPoster.RETRY_BACKOFF ^ i)).sum) := by
    norm_num [NoteDraftPoster.MAX_RETRIES, List.range_succ]
    ring
  rw [NoteDraftPoster.rate_limited_request]
  simp only [List.sum_cons]
  rw [hsum] at hloop
  exact add_le_add_left hloop _

/-- C9.  On every exit path of `get_note_cookies` and of
`post_to_note_selenium` — success, login failure, missing elements, and
the exceptional exits converted or re-raised by the handlers — the
`finally` block runs `driver.quit()` exactly when a driver was created:
the release action is in the trace if and only if the acquire action is,
which happens if and only if `webdriver.Chrome(...)` succeeded. -/
theorem c9_driver_released_on_every_exit :
    (∀ env : NoteDraftPoster.LoginEnv,
      (UiAction.releaseDriver ∈ (NoteDraftPoster.get_note_cookies env).2 ↔ env.driverStarts) ∧
      (UiAction.acquireDriver ∈ (NoteDraftPoster.get_note_cookies env).2 ↔ env.driverStarts)) ∧
    (∀ (env : NoteDraftPosterSelenium.UiEnv) (imagePath : Option Chars) (headless : Bool),
      (UiAction.releaseDriver ∈
          (NoteDraftPosterSelenium.post_to_note_selenium env imagePath headless).2 ↔
        env.driverStarts) ∧
      (UiAction.acquireDriver ∈
          (NoteDraftPosterSelenium.post_to_note_selenium env imagePath headless).2 ↔
        env.driverStarts)) := by
  constructor
  · intro env
    by_cases h : env.driverStarts <;>
      simp [NoteDraftPoster.get_note_cookies, h]
  · intro env imagePath headless
    by_cases h : env.driverStarts <;> cases headless <;>
      simp [NoteDraftPosterSelenium.post_to_note_selenium, h]

/-- C1 (the code, not the claim).  `post_to_note_selenium` has no publish
parameter at all — every run is a "default" run in the claim's sense — yet
on a page exposing the standard controls the run clicks the publish
button, selects the paid tier, enters the 480-yen price, and clicks the
final publish control, then reports success.  This evaluates the selenium
flow on such a page (no image supplied): the trace performs the publish
actions even though the caller never requested publishing, contradicting
the claim and the script's own draft-only documentation.  (The API-driven
variant does stay at `draft`: every payload it ever sends carries
`"status": "draft"` — see `NoteDraftPoster.payloads_to_try` and
`NoteDraftPoster.update_payload`.) -/
theorem c1_selenium_default_run_publishes :
    (UiAction.clickPublish ∈
      (NoteDraftPosterSelenium.post_to_note_selenium
        ⟨true, true, true, true, true, true, true, true, true, true, true, true, true,
         true, true, true, ['u']⟩ none true).2) ∧
    (UiAction.enterPrice 480 ∈
      (NoteDraftPosterSelenium.post_to_note_selenium
        ⟨true, true, true, true, true, true, true, true, true, true, true, true, true,
         true, true, true, ['u']⟩ none true).2) ∧
    (UiAction.clickFinalPublish ∈
      (NoteDraftPosterSelenium.post_to_note_selenium
        ⟨true, true, true, true, true, true, true, true, true, true, true, true, true,
         true, true, true, ['u']⟩ none true).2) ∧
    (NoteDraftPosterSelenium.post_to_note_selenium
        ⟨true, true, true, true, true, true, true, true, true, true, true, true, true,
         true, true, true, ['u']⟩ none true).1 = some ['u'] ∧
    ((NoteDraftPoster.payloads_to_try ['t'] ['h']).map NoteDraftPoster.NotePayload.status =
      [NoteDraftPoster.draftStatus, NoteDraftPoster.draftStatus, NoteDraftPoster.draftStatus]) := by
  decide

/-- C10.  When the create endpoint answers 200 with a JSON object that
(after the optional `data` unwrapping) contains neither `id` nor `key`,
`create_article` still succeeds with the pair `("", "")` (the `.get`
defaults), and `post_to_note` — with no image and a successful draft
update — reports overall success with an article URL built from the empty
key, i.e. a URL ending in `/n/`. -/
theorem c10_missing_id_key_yields_empty_url
    (env : NoteDraftPoster.PostEnv) (noteUserName title md : Chars)
    (b : NoteDraftPoster.JFields) (cookies : List (Chars × Chars))
    (hlogin : env.login = .ok cookies)
    (hcreate : env.createEnv 0 0 = .resp ⟨200, some b⟩)
    (hdata : NoteDraftPoster.jlookup b NoteDraftPoster.dataKey = none)
    (hid : NoteDraftPoster.jlookup b NoteDraftPoster.idKey = none)
    (hkey : NoteDraftPoster.jlookup b NoteDraftPoster.keyKey = none)
    (hupdate : env.updateEnv 0 = .resp ⟨200, none⟩) :
    (NoteDraftPoster.create_article (env.createEnv 0) title md).1 = .ok ([], []) ∧
    (NoteDraftPoster.post_to_note env noteUserName title md none).1 =
      .ok (NoteDraftPoster.article_url noteUserName []) ∧
    ['/', 'n', '/'] <:+ NoteDraftPoster.article_url noteUserName [] ∧
    NoteDraftPoster.ApiStep.stepDone ∈
      (NoteDraftPoster.post_to_note env noteUserName title md none).2 := by
  have hpa : NoteDraftPoster.processAttempt (env.createEnv 0 0) = .ok ([], []) := by
    rw [hcreate]
    simp [NoteDraftPoster.processAttempt, NoteDraftPoster.unwrapData, hdata,
      NoteDraftPoster.jget, hid, hkey, NoteDraftPoster.pyStr]
  have hca : (NoteDraftPoster.create_article (env.createEnv 0) title md).1 = .ok ([], []) := by
    rw [NoteDraftPoster.create_article, NoteDraftPoster.payloads_to_try,
      NoteDraftPoster.createLoop, hpa]
  have hcr : (NoteDraftPoster.rate_limited_request
      (fun k => (NoteDraftPoster.create_article (env.createEnv k) title md).1)).result =
        .ok (some ([], [])) := by
    rw [NoteDraftPoster.rate_limited_request,
      show NoteDraftPoster.MAX_RETRIES = 2 + 1 from rfl,
      NoteDraftPoster.rlLoop_ok (f := fun k =>
        (NoteDraftPoster.create_article (env.createEnv k) title md).1) hca 2 none]
  have hup : NoteDraftPoster.update_article_draft_once (env.updateEnv 0) = .ok true := by
    rw [hupdate]
    simp [NoteDraftPoster.update_article_draft_once]
  have hur : (NoteDraftPoster.rate_limited_request
      (fun k => NoteDraftPoster.update_article_draft_once (env.updateEnv k))).result =
        .ok (some true) := by
    rw [NoteDraftPoster.rate_limited_request,
      show NoteDraftPoster.MAX_RETRIES = 2 + 1 from rfl,
      NoteDraftPoster.rlLoop_ok (f := fun k =>
        NoteDraftPoster.update_article_draft_once (env.updateEnv k)) hup 2 none]
  have hpost : NoteDraftPoster.post_to_note env noteUserName title md none =
      (.ok (NoteDraftPoster.article_url noteUserName []),
       [.stepLogin, .stepCreate, .stepUpdate, .stepDone]) := by
    rw [NoteDraftPoster.post_to_note, hlogin]
    simp [hcr, hur]
  refine ⟨hca, by rw [hpost], ?_, by rw [hpost]; simp⟩
  refine ⟨NoteDraftPoster.BASE_URL ++ '/' :: NoteDraftPoster.userNameOr noteUserName, ?_⟩
  simp [NoteDraftPoster.article_url]

/-- Witness for C10: a concrete environment whose create response is
`200 {}`. -/
theorem c10_missing_id_key_yields_empty_url_witness :
    (NoteDraftPoster.create_article
      ((⟨.ok [], fun _ _ => .resp ⟨200, some .nil⟩, true, fun _ => .resp ⟨200, none⟩,
        fun _ => .resp ⟨200, none⟩⟩ : NoteDraftPoster.PostEnv).createEnv 0) ['t'] ['m']).1 =
      .ok ([], []) ∧
    (NoteDraftPoster.post_to_note
      ⟨.ok [], fun _ _ => .resp ⟨200, some .nil⟩, true, fun _ => .resp ⟨200, none⟩,
       fun _ => .resp ⟨200, none⟩⟩ [] ['t'] ['m'] none).1 =
      .ok (NoteDraftPoster.article_url [] []) ∧
    ['/', 'n', '/'] <:+ NoteDraftPoster.article_url [] [] ∧
    NoteDraftPoster.ApiStep.stepDone ∈
      (NoteDraftPoster.post_to_note
        ⟨.ok [], fun _ _ => .resp ⟨200, some .nil⟩, true, fun _ => .resp ⟨200, none⟩,
         fun _ => .resp ⟨200, none⟩⟩ [] ['t'] ['m'] none).2 :=
  c10_missing_id_key_yields_empty_url
    ⟨.ok [], fun _ _ => .resp ⟨200, some .nil⟩, true, fun _ => .resp ⟨200, none⟩,
     fun _ => .resp ⟨200, none⟩⟩ [] ['t'] ['m'] .nil [] rfl rfl rfl rfl rfl rfl

/-- C3 counterexample.  If all three payload shapes fail, the exception
raised is `Exception(f"記事作成に失敗しました: {last_error}")`, which
interpolates only `last_error` — the failure of the final attempt.  Two
runs whose first two attempts fail with entirely different client errors
(400/422 versus 403/418) but share the third failure raise the *identical*
error, so the error cannot be an aggregate summarizing each attempt. -/
theorem c3_error_carries_only_last_attempt :
    (NoteDraftPoster.create_article
        (fun i => .resp ⟨if i = 0 then 400 else if i = 1 then 422 else 500, none⟩)
        ['t'] ['m']).1 =
      .error (.generic (NoteDraftPoster.createFailMsg (.httpResp 500))) ∧
    (NoteDraftPoster.create_article
        (fun i => .resp ⟨if i = 0 then 403 else if i = 1 then 418 else 500, none⟩)
        ['t'] ['m']).1 =
      .error (.generic (NoteDraftPoster.createFailMsg (.httpResp 500))) ∧
    ((fun i : Nat => NoteDraftPoster.PostOutcome.resp
        ⟨if i = 0 then 400 else if i = 1 then 422 else 500, none⟩) 0 ≠
      (fun i : Nat => NoteDraftPoster.PostOutcome.resp
        ⟨if i = 0 then 403 else if i = 1 then 418 else 500, none⟩) 0) :=
  ⟨rfl, rfl, by decide⟩

/-- C3 amended.  `create_article` tries its three payload shapes in order
and accepts the first whose response status is 200 or 201 (and whose body
parses), returning that attempt's identifiers with no failure surfaced;
when every shape fails, the run raises an error carrying the *last*
attempt's failure (not an aggregate), each attempt's failure having been
logged as a warning. -/
theorem c3_first_success_else_last_error
    (env : Nat → NoteDraftPoster.PostOutcome) (title md : Chars) :
    (∀ (j : Nat) (ik : Chars × Chars), j < 3 →
      (∀ i, i < j → ∃ f, NoteDraftPoster.processAttempt (env i) = .error f) →
      NoteDraftPoster.processAttempt (env j) = .ok ik →
      (NoteDraftPoster.create_article env title md).1 = .ok ik) ∧
    (∀ f0 f1 f2 : NoteDraftPoster.AttemptFail,
      NoteDraftPoster.processAttempt (env 0) = .error f0 →
      NoteDraftPoster.processAttempt (env 1) = .error f1 →
      NoteDraftPoster.processAttempt (env 2) = .error f2 →
      (NoteDraftPoster.create_article env title md).1 =
        .error (.generic (NoteDraftPoster.createFailMsg f2)) ∧
      (NoteDraftPoster.create_article env title md).2 =
        [NoteDraftPoster.logOfFail 0 f0, NoteDraftPoster.logOfFail 1 f1,
         NoteDraftPoster.logOfFail 2 f2]) := by
  constructor
  · intro j ik hj hfail hsucc
    interval_cases j
    · simp [NoteDraftPoster.create_article, NoteDraftPoster.payloads_to_try,
        NoteDraftPoster.createLoop, hsucc]
    · obtain ⟨f0, hf0⟩ := hfail 0 (by omega)
      simp [NoteDraftPoster.create_article, NoteDraftPoster.payloads_to_try,
        NoteDraftPoster.createLoop, hf0, hsucc]
    · obtain ⟨f0, hf0⟩ := hfail 0 (by omega)
      obtain ⟨f1, hf1⟩ := hfail 1 (by omega)
      simp [NoteDraftPoster.create_article, NoteDraftPoster.payloads_to_try,
        NoteDraftPoster.createLoop, hf0, hf1, hsucc]
  · intro f0 f1 f2 hf0 hf1 hf2
    constructor <;>
      simp [NoteDraftPoster.create_article, NoteDraftPoster.payloads_to_try,
        NoteDraftPoster.createLoop, hf0, hf1, hf2]

/-- Witness for C3 amended: a run whose first two shapes fail with 400 and
422 and whose third succeeds with id `7`, key `k`; and the all-fail run of
the counterexample with its per-attempt warnings. -/
theorem c3_first_success_else_last_error_witness :
    (NoteDraftPoster.create_article
        (fun i => if i ≤ 1 then .resp ⟨if i = 0 then 400 else 422, none⟩
          else .resp ⟨201, some (.cons ['i', 'd'] (.n 7)
            (.cons ['k', 'e', 'y'] (.s ['k']) .nil))⟩)
        ['t'] ['m']).1 = .ok (['7'], ['k']) ∧
    ((NoteDraftPoster.create_article
        (fun i => .resp ⟨if i = 0 then 400 else if i = 1 then 422 else 500, none⟩)
        ['t'] ['m']).1 =
      .error (.generic (NoteDraftPoster.createFailMsg (.httpResp 500))) ∧
     (NoteDraftPoster.create_article
        (fun i => .resp ⟨if i = 0 then 400 else if i = 1 then 422 else 500, none⟩)
        ['t'] ['m']).2 =
      [NoteDraftPoster.logOfFail 0 (.httpResp 400), NoteDraftPoster.logOfFail 1 (.httpResp 422),
       NoteDraftPoster.logOfFail 2 (.httpResp 500)]) := by
  constructor
  · exact (c3_first_success_else_last_error _ ['t'] ['m']).1 2 (['7'], ['k']) (by omega)
      (by
        intro i hi
        interval_cases i
        · exact ⟨.httpResp 400, rfl⟩
        · exact ⟨.httpResp 422, rfl⟩)
      rfl
  · exact (c3_first_success_else_last_error _ ['t'] ['m']).2
      (.httpResp 400) (.httpResp 422) (.httpResp 500) rfl rfl rfl

/-- C4 counterexample.  In the API-driven variant, a failing media upload
does not log-and-continue: `upload_image` raises (here via
`raise_for_status` on a 500), `post_to_note` has no handler around Step 3,
so the run aborts before `update_article_draft` — the PersistDraft step is
never reached, contradicting the claim for this variant. -/
theorem c4_api_media_failure_aborts_run :
    (NoteDraftPoster.post_to_note
      ⟨.ok [], fun _ _ => .resp ⟨200, some .nil⟩, true, fun _ => .resp ⟨500, none⟩,
       fun _ => .resp ⟨200, none⟩⟩ [] ['t'] ['m'] (some ['p'])).1 =
      .error (.httpError 500) ∧
    NoteDraftPoster.ApiStep.stepUpdate ∉
      (NoteDraftPoster.post_to_note
        ⟨.ok [], fun _ _ => .resp ⟨200, some .nil⟩, true, fun _ => .resp ⟨500, none⟩,
         fun _ => .resp ⟨200, none⟩⟩ [] ['t'] ['m'] (some ['p'])).2 :=
  ⟨rfl, by decide⟩

/-- C4 amended.  In the UI-driven variant the claim holds for both
failure modes of the image step: when the AttachMedia affordance cannot
be located (`eyecatchFound = false`), or the eyecatch control is found
but the subsequent upload fails because the file input cannot be
located (`fileInputFound = false`), the exception is caught, the run
logs a warning (`画像アップロードをスキップ`) and continues, still
completing and returning the current URL.  In the API-driven variant a
media-upload failure instead propagates and aborts the run before the
PersistDraft step (`update_article_draft` is never invoked). -/
theorem c4_attach_media_failure_policy :
    (∀ (env : NoteDraftPosterSelenium.UiEnv) (p : Chars) (headless : Bool),
      env.driverStarts → env.loginFieldsFound → env.loginOk →
      env.imageExists → (¬env.eyecatchFound ∨ ¬env.fileInputFound) →
      (NoteDraftPosterSelenium.post_to_note_selenium env (some p) headless).1 =
        some env.currentUrl ∧
      UiAction.warnSkipImage ∈
        (NoteDraftPosterSelenium.post_to_note_selenium env (some p) headless).2) ∧
    (∀ (env : NoteDraftPoster.PostEnv) (noteUserName title md p : Chars)
       (ik : Chars × Chars) (e : NotePoster.PyExc) (cookies : List (Chars × Chars)),
      env.login = .ok cookies →
      (NoteDraftPoster.rate_limited_request
        (fun k => (NoteDraftPoster.create_article (env.createEnv k) title md).1)).result =
          .ok (some ik) →
      (NoteDraftPoster.rate_limited_request
        (fun k => NoteDraftPoster.upload_image_once env.imageExists (env.uploadEnv k))).result =
          .error e →
      (NoteDraftPoster.post_to_note env noteUserName title md (some p)).1 = .error e ∧
      NoteDraftPoster.ApiStep.stepUpdate ∉
        (NoteDraftPoster.post_to_note env noteUserName title md (some p)).2) := by
  constructor
  · intro env p headless hD hF hL hI hE
    rw [NoteDraftPosterSelenium.post_to_note_selenium, NoteDraftPosterSelenium.seleniumBody]
    rcases hE with hE | hE
    · simp [hD, hF, hL, hI, hE]
    · by_cases hEy : env.eyecatchFound <;> simp [hD, hF, hL, hI, hE, hEy]
  · intro env noteUserName title md p ik e cookies hlogin hcr hup
    have hpost : NoteDraftPoster.post_to_note env noteUserName title md (some p) =
        (.error e, [.stepLogin, .stepCreate, .stepUpload]) := by
      rw [NoteDraftPoster.post_to_note, hlogin]
      simp [hcr, hup]
    rw [hpost]
    exact ⟨rfl, by simp⟩

/-- Witness for C4 amended: a UI run on a page with no eyecatch control,
a UI run whose eyecatch control is found but whose file input is not,
and an API run whose image upload answers 500. -/
theorem c4_attach_media_failure_policy_witness :
    ((NoteDraftPosterSelenium.post_to_note_selenium
        ⟨true, true, true, true, true, true, true, true, false, true, true, true, true,
         true, true, true, ['u']⟩ (some ['p']) true).1 = some ['u'] ∧
      UiAction.warnSkipImage ∈
        (NoteDraftPosterSelenium.post_to_note_selenium
          ⟨true, true, true, true, true, true, true, true, false, true, true, true, true,
           true, true, true, ['u']⟩ (some ['p']) true).2) ∧
    ((NoteDraftPosterSelenium.post_to_note_selenium
        ⟨true, true, true, true, true, true, true, true, true, false, true, true, true,
         true, true, true, ['u']⟩ (some ['p']) true).1 = some ['u'] ∧
      UiAction.warnSkipImage ∈
        (NoteDraftPosterSelenium.post_to_note_selenium
          ⟨true, true, true, true, true, true, true, true, true, false, true, true, true,
           true, true, true, ['u']⟩ (some ['p']) true).2) ∧
    ((NoteDraftPoster.post_to_note
        ⟨.ok [], fun _ _ => .resp ⟨200, some .nil⟩, true, fun _ => .resp ⟨500, none⟩,
         fun _ => .resp ⟨200, none⟩⟩ [] ['t'] ['m'] (some ['p'])).1 =
        .error (.httpError 500) ∧
      NoteDraftPoster.ApiStep.stepUpdate ∉
        (NoteDraftPoster.post_to_note
          ⟨.ok [], fun _ _ => .resp ⟨200, some .nil⟩, true, fun _ => .resp ⟨500, none⟩,
           fun _ => .resp ⟨200, none⟩⟩ [] ['t'] ['m'] (some ['p'])).2) := by
  refine ⟨?_, ?_, ?_⟩
  · exact c4_attach_media_failure_policy.1
      ⟨true, true, true, true, true, true, true, true, false, true, true, true, true,
       true, true, true, ['u']⟩ ['p'] true rfl rfl rfl rfl (Or.inl (by simp))
  · exact c4_attach_media_failure_policy.1
      ⟨true, true, true, true, true, true, true, true, true, false, true, true, true,
       true, true, true, ['u']⟩ ['p'] true rfl rfl rfl rfl (Or.inr (by simp))
  · exact c4_attach_media_failure_policy.2
      ⟨.ok [], fun _ _ => .resp ⟨200, some .nil⟩, true, fun _ => .resp ⟨500, none⟩,
       fun _ => .resp ⟨200, none⟩⟩ [] ['t'] ['m'] ['p'] ([], []) (.httpError 500) []
      rfl rfl rfl

/-- C5 counterexample.  In the API-driven variant's text transform, the
heading prefixes `# ` and `## ` map to the *same* markup level: both
produce `<h2>` (lines 325-336 of `note_draft_poster.py`), so the three
prefixes do not map to three pairwise distinct levels.  The document
`# a\n## b\n### c` yields `<h2>a</h2>\n<h2>b</h2>\n<h3>c</h3>`, and the
single-line documents `# a` and `## a` yield identical output. -/
theorem c5_api_heading_levels_collide :
    NoteDraftPoster.markdown_to_html ['#', ' ', 'a'] =
      NoteDraftPoster.markdown_to_html ['#', '#', ' ', 'a'] ∧
    NoteDraftPoster.markdown_to_html
        ['#', ' ', 'a', '\n', '#', '#', ' ', 'b', '\n', '#', '#', '#', ' ', 'c'] =
      ['<', 'h', '2', '>', 'a', '<', '/', 'h', '2', '>', '\n',
       '<', 'h', '2', '>', 'b', '<', '/', 'h', '2', '>', '\n',
       '<', 'h', '3', '>', 'c', '<', '/', 'h', '3', '>'] := by
  decide

/-- C5 amended.  In the API-driven transform, for every heading content
`r` (no newline), `### r` maps to the `<h3>` level while `# r` and
`## r` both map to the same `<h2>` level — exactly two distinct levels.
In the UI-driven transform's heading passes (lines 77-79, applied in
source order), the three prefixes map to the three pairwise distinct
markers `◆`, `■`, `▼`. -/
theorem c5_heading_level_mapping :
    (∀ r : Chars, '\n' ∉ r →
      NoteDraftPoster.markdown_to_html ('#' :: ' ' :: r) =
        NoteDraftPoster.tagWrap ['h', '2'] (NotePoster.pyStrip r) ∧
      NoteDraftPoster.markdown_to_html ('#' :: '#' :: ' ' :: r) =
        NoteDraftPoster.tagWrap ['h', '2'] (NotePoster.pyStrip r) ∧
      NoteDraftPoster.markdown_to_html ('#' :: '#' :: '#' :: ' ' :: r) =
        NoteDraftPoster.tagWrap ['h', '3'] (NotePoster.pyStrip r)) ∧
    (∀ r : Chars, r ≠ [] → '\n' ∉ r →
      NoteDraftPosterSelenium.subHeading NoteDraftPosterSelenium.h1pre '◆'
          (NoteDraftPosterSelenium.subHeading NoteDraftPosterSelenium.h2pre '■'
            (NoteDraftPosterSelenium.subHeading NoteDraftPosterSelenium.h3pre '▼'
              ('#' :: ' ' :: r))) = '◆' :: ' ' :: r ∧
      NoteDraftPosterSelenium.subHeading NoteDraftPosterSelenium.h1pre '◆'
          (NoteDraftPosterSelenium.subHeading NoteDraftPosterSelenium.h2pre '■'
            (NoteDraftPosterSelenium.subHeading NoteDraftPosterSelenium.h3pre '▼'
              ('#' :: '#' :: ' ' :: r))) = '■' :: ' ' :: r ∧
      NoteDraftPosterSelenium.subHeading NoteDraftPosterSelenium.h1pre '◆'
          (NoteDraftPosterSelenium.subHeading NoteDraftPosterSelenium.h2pre '■'
            (NoteDraftPosterSelenium.subHeading NoteDraftPosterSelenium.h3pre '▼'
              ('#' :: '#' :: '#' :: ' ' :: r))) = '▼' :: ' ' :: r ∧
      ('◆' ≠ '■' ∧ '◆' ≠ '▼' ∧ '■' ≠ '▼')) := by
  constructor
  · intro r hr
    refine ⟨?_, ?_, ?_⟩
    · have hstr := NotePoster.pyStrip_cons '#' (by decide) (' ' :: r)
      rw [NoteDraftPoster.markdown_to_html,
        NotePoster.splitLines_no_nl ('#' :: ' ' :: r) (by simp [hr])]
      simp [NoteDraftPoster.processLine, hstr, NoteDraftPoster.closeList,
        NoteDraftPoster.isOlItem, NotePoster.joinLines]
    · have hstr := NotePoster.pyStrip_cons '#' (by decide) ('#' :: ' ' :: r)
      rw [NoteDraftPoster.markdown_to_html,
        NotePoster.splitLines_no_nl ('#' :: '#' :: ' ' :: r) (by simp [hr])]
      simp [NoteDraftPoster.processLine, hstr, NoteDraftPoster.closeList,
        NoteDraftPoster.isOlItem, NotePoster.joinLines]
    · have hstr := NotePoster.pyStrip_cons '#' (by decide) ('#' :: '#' :: ' ' :: r)
      rw [NoteDraftPoster.markdown_to_html,
        NotePoster.splitLines_no_nl ('#' :: '#' :: '#' :: ' ' :: r) (by simp [hr])]
      simp [NoteDraftPoster.processLine, hstr, NoteDraftPoster.closeList,
        NoteDraftPoster.isOlItem, NotePoster.joinLines]
  · intro r hne hr
    have h1 : '\n' ∉ '#' :: ' ' :: r := by simp [hr]
    have h2 : '\n' ∉ '#' :: '#' :: ' ' :: r := by simp [hr]
    have h3 : '\n' ∉ '#' :: '#' :: '#' :: ' ' :: r := by simp [hr]
    have hsq : '\n' ∉ '■' :: ' ' :: r := by simp [hr]
    have htr : '\n' ∉ '▼' :: ' ' :: r := by simp [hr]
    refine ⟨?_, ?_, ?_, by decide, by decide, by decide⟩
    · rw [NoteDraftPosterSelenium.subHeading_single_neg h1
          (by simp [NoteDraftPosterSelenium.h3pre, List.isPrefixOf]),
        NoteDraftPosterSelenium.subHeading_single_neg h1
          (by simp [NoteDraftPosterSelenium.h2pre, List.isPrefixOf]),
        NoteDraftPosterSelenium.subHeading_single_pos h1
          ⟨by simp [NoteDraftPosterSelenium.h1pre, List.isPrefixOf],
           by simp [NoteDraftPosterSelenium.h1pre, hne]⟩]
      simp [NoteDraftPosterSelenium.h1pre]
    · rw [NoteDraftPosterSelenium.subHeading_single_neg h2
          (by simp [NoteDraftPosterSelenium.h3pre, List.isPrefixOf]),
        NoteDraftPosterSelenium.subHeading_single_pos h2
          ⟨by simp [NoteDraftPosterSelenium.h2pre, List.isPrefixOf],
           by simp [NoteDraftPosterSelenium.h2pre, hne]⟩]
      rw [show ('#' :: '#' :: ' ' :: r).drop NoteDraftPosterSelenium.h2pre.length = r from rfl]
      rw [NoteDraftPosterSelenium.subHeading_single_neg hsq
          (by simp [NoteDraftPosterSelenium.h1pre, List.isPrefixOf])]
    · rw [NoteDraftPosterSelenium.subHeading_single_pos h3
          ⟨by simp [NoteDraftPosterSelenium.h3pre, List.isPrefixOf],
           by simp [NoteDraftPosterSelenium.h3pre, hne]⟩]
      rw [show ('#' :: '#' :: '#' :: ' ' :: r).drop NoteDraftPosterSelenium.h3pre.length = r from rfl]
      rw [NoteDraftPosterSelenium.subHeading_single_neg htr
          (by simp [NoteDraftPosterSelenium.h2pre, List.isPrefixOf]),
        NoteDraftPosterSelenium.subHeading_single_neg htr
          (by simp [NoteDraftPosterSelenium.h1pre, List.isPrefixOf])]

/-- Witness for C5 amended at `r = "x"`. -/
theorem c5_heading_level_mapping_witness :
    (NoteDraftPoster.markdown_to_html ('#' :: ' ' :: ['x']) =
        NoteDraftPoster.tagWrap ['h', '2'] (NotePoster.pyStrip ['x']) ∧
      NoteDraftPoster.markdown_to_html ('#' :: '#' :: ' ' :: ['x']) =
        NoteDraftPoster.tagWrap ['h', '2'] (NotePoster.pyStrip ['x']) ∧
      NoteDraftPoster.markdown_to_html ('#' :: '#' :: '#' :: ' ' :: ['x']) =
        NoteDraftPoster.tagWrap ['h', '3'] (NotePoster.pyStrip ['x'])) ∧
    (NoteDraftPosterSelenium.subHeading NoteDraftPosterSelenium.h1pre '◆'
        (NoteDraftPosterSelenium.subHeading NoteDraftPosterSelenium.h2pre '■'
          (NoteDraftPosterSelenium.subHeading NoteDraftPosterSelenium.h3pre '▼'
            ('#' :: ' ' :: ['x']))) = '◆' :: ' ' :: ['x']) :=
  ⟨c5_heading_level_mapping.1 ['x'] (by decide),
   (c5_heading_level_mapping.2 ['x'] (by decide) (by decide)).1⟩

/-- C8.  Both Markdown-to-markup functions are pure and total.  In the
embedding, each is a total Lean function `List Char → List Char` built
exclusively from total operations (every Python operation the two
functions use on `str` — `split`, `startswith`, slicing, `join`, `strip`,
`replace`, `re.sub`, `re.findall` — is total and raises on no input), and
each scanning pass runs on an explicit fuel equal to its input length.
This theorem states the substance of totality for those recursions: for
every input string and every fuel surplus, running every pass of both
transforms with extra fuel produces the same output string — each
recursion terminates within its budget, so for every input string both
transforms are well-defined and deterministic, and no failure path
exists. -/
theorem c8_markdown_to_html_pure_total (s : Chars) (extra : Nat) :
    NoteDraftPoster.markdown_to_htmlK extra s = NoteDraftPoster.markdown_to_html s ∧
    NoteDraftPosterSelenium.markdown_to_htmlK extra s =
      NoteDraftPosterSelenium.markdown_to_html s :=
  ⟨NoteDraftPoster.markdown_to_htmlK_eq_api extra s,
   NoteDraftPosterSelenium.markdown_to_htmlK_eq_sel extra s⟩

/-- C6 counterexample.  Two failures of the claim on concrete inputs.
(1) The bare URL in `【IMAGE_1】 http://x.com` sits inside no link
construct, yet the transform converts it into zero link constructs: the
placeholder pass (line 97) deletes the rest of the line, URL included, so
the output is empty.  (2) For the input `[t](http://x.com/"a)`
(a Markdown link whose URL contains a double quote), the generated link is
`<a href="http://x.com/"a">t</a>`, which the masking pattern
`<a href="[^"]+">.*?</a>` fails to match — the quote ends `[^"]+` before
the `>` — so the link is not masked and the bare-URL pass wraps the URL
inside the generated link a second time, producing a nested link. -/
theorem c6_bare_url_linking_fails :
    NoteDraftPosterSelenium.markdown_to_html
        ['【', 'I', 'M', 'A', 'G', 'E', '_', '1', '】', ' ',
         'h', 't', 't', 'p', ':', '/', '/', 'x', '.', 'c', 'o', 'm'] = [] ∧
    NoteDraftPosterSelenium.markdown_to_html
        ['[', 't', ']', '(', 'h', 't', 't', 'p', ':', '/', '/', 'x', '.', 'c', 'o', 'm',
         '/', '"', 'a', ')'] =
      ['<', 'a', ' ', 'h', 'r', 'e', 'f', '=', '"',
       '<', 'a', ' ', 'h', 'r', 'e', 'f', '=', '"',
       'h', 't', 't', 'p', ':', '/', '/', 'x', '.', 'c', 'o', 'm', '/',
       '"', '>',
       'h', 't', 't', 'p', ':', '/', '/', 'x', '.', 'c', 'o', 'm', '/',
       '<', '/', 'a', '>',
       '"', 'a', '"', '>', 't', '<', '/', 'a', '>'] := by
  decide

section C6Amended

open NoteDraftPosterSelenium

/-- C6 amended.  At the bare-URL linking stage (lines 103-119): for every
URL tail `u` of link-safe characters (characters in the bare-URL class
`[^\s<>\"\')]`, excluding `_` so that the text cannot collide with the
internal markers), a text consisting of a generated link (whose href is
free of double quotes, hence matched by the masking pattern) followed by
the bare URL `http://u` is transformed so that the generated link is
restored verbatim — its URL is not wrapped a second time — and the bare
URL is converted into exactly one link construct, even though it is
adjacent to the already-linked text.  (URLs deleted by earlier passes and
generated links whose URL contains a double quote are excluded, as forced
by the counterexample.) -/
theorem c6_linkify_masked_url_exactly_once (u : Chars) (hne : u ≠ [])
    (hchars : ∀ c ∈ u, isUrlChar c = true ∧ c ≠ '_') :
    linkifyUrls
        (mkALink ['t'] (httpProto ++ ['a', '.', 'c', 'o', 'm']) ++
          ' ' :: (httpProto ++ u)) =
      mkALink ['t'] (httpProto ++ ['a', '.', 'c', 'o', 'm']) ++
        ' ' :: mkALink (httpProto ++ u) (httpProto ++ u) := by
  have hlt : '<' ∉ u := fun hm => absurd (hchars _ hm).1 (by decide)
  have hus : '_' ∉ u := fun hm => absurd rfl (hchars _ hm).2
  have hL : mkALink ['t'] (httpProto ++ ['a', '.', 'c', 'o', 'm']) =
      ['<', 'a', ' ', 'h', 'r', 'e', 'f', '=', '"', 'h', 't', 't', 'p', ':', '/', '/',
       'a', '.', 'c', 'o', 'm', '"', '>', 't', '<', '/', 'a', '>'] := by decide
  rw [hL]
  rw [show httpProto ++ u = 'h' :: 't' :: 't' :: 'p' :: ':' :: '/' :: '/' :: u from rfl]
  have hA : maskStep
      (['<', 'a', ' ', 'h', 'r', 'e', 'f', '=', '"', 'h', 't', 't', 'p', ':', '/', '/',
        'a', '.', 'c', 'o', 'm', '"', '>', 't', '<', '/', 'a', '>'] ++
        ' ' :: ('h' :: 't' :: 't' :: 'p' :: ':' :: '/' :: '/' :: u)) =
      some (['<', 'a', ' ', 'h', 'r', 'e', 'f', '=', '"', 'h', 't', 't', 'p', ':', '/', '/',
        'a', '.', 'c', 'o', 'm', '"', '>', 't', '<', '/', 'a', '>'],
        ' ' :: ('h' :: 't' :: 't' :: 'p' :: ':' :: '/' :: '/' :: u)) := by
    simp [maskStep, aOpen, aMid, aClose, headIs, findClose, List.takeWhile_cons]
  have hnoLt : '<' ∉ (' ' :: ('h' :: 't' :: 't' :: 'p' :: ':' :: '/' :: '/' :: u)) := by
    simp [hlt]
  have hfindall : findAll maskStep
      (['<', 'a', ' ', 'h', 'r', 'e', 'f', '=', '"', 'h', 't', 't', 'p', ':', '/', '/',
        'a', '.', 'c', 'o', 'm', '"', '>', 't', '<', '/', 'a', '>'] ++
        ' ' :: ('h' :: 't' :: 't' :: 'p' :: ':' :: '/' :: '/' :: u)) =
      [['<', 'a', ' ', 'h', 'r', 'e', 'f', '=', '"', 'h', 't', 't', 'p', ':', '/', '/',
        'a', '.', 'c', 'o', 'm', '"', '>', 't', '<', '/', 'a', '>']] :=
    findAll_cons_of_none maskStep hA
      (step_none_at_drops maskStep '<' maskStep_head_none hnoLt)
  have hmarker : linkMarker 0 =
      ['_', '_', 'L', 'I', 'N', 'K', '_', 'M', 'A', 'R', 'K', 'E', 'R', '_', '0', '_', '_'] := by
    decide
  have hstepB : replaceStep
      (['<', 'a', ' ', 'h', 'r', 'e', 'f', '=', '"', 'h', 't', 't', 'p', ':', '/', '/',
        'a', '.', 'c', 'o', 'm', '"', '>', 't', '<', '/', 'a', '>'])
      (['_', '_', 'L', 'I', 'N', 'K', '_', 'M', 'A', 'R', 'K', 'E', 'R', '_', '0', '_', '_'])
      (['<', 'a', ' ', 'h', 'r', 'e', 'f', '=', '"', 'h', 't', 't', 'p', ':', '/', '/',
        'a', '.', 'c', 'o', 'm', '"', '>', 't', '<', '/', 'a', '>'] ++
        ' ' :: ('h' :: 't' :: 't' :: 'p' :: ':' :: '/' :: '/' :: u)) =
      some (['_', '_', 'L', 'I', 'N', 'K', '_', 'M', 'A', 'R', 'K', 'E', 'R', '_', '0', '_', '_'],
        ' ' :: ('h' :: 't' :: 't' :: 'p' :: ':' :: '/' :: '/' :: u)) := by
    simp [replaceStep, List.isPrefixOf]
  have hB : pyReplace
      (['<', 'a', ' ', 'h', 'r', 'e', 'f', '=', '"', 'h', 't', 't', 'p', ':', '/', '/',
        'a', '.', 'c', 'o', 'm', '"', '>', 't', '<', '/', 'a', '>'] ++
        ' ' :: ('h' :: 't' :: 't' :: 'p' :: ':' :: '/' :: '/' :: u))
      (['<', 'a', ' ', 'h', 'r', 'e', 'f', '=', '"', 'h', 't', 't', 'p', ':', '/', '/',
        'a', '.', 'c', 'o', 'm', '"', '>', 't', '<', '/', 'a', '>'])
      (['_', '_', 'L', 'I', 'N', 'K', '_', 'M', 'A', 'R', 'K', 'E', 'R', '_', '0', '_', '_']) =
      ['_', '_', 'L', 'I', 'N', 'K', '_', 'M', 'A', 'R', 'K', 'E', 'R', '_', '0', '_', '_'] ++
        (' ' :: ('h' :: 't' :: 't' :: 'p' :: ':' :: '/' :: '/' :: u)) := by
    rw [pyReplace]
    exact scanSub_cons_of_none _ hstepB
      (step_none_at_drops _ '<' (fun c t hc => replaceStep_head_none '<' _ _ c t hc) hnoLt)
  have htw : u.takeWhile isUrlChar = u := takeWhile_all (fun c hm => (hchars c hm).1)
  have hurl : urlStep ('h' :: 't' :: 't' :: 'p' :: ':' :: '/' :: '/' :: u) =
      some (mkALink ('h' :: 't' :: 't' :: 'p' :: ':' :: '/' :: '/' :: u)
        ('h' :: 't' :: 't' :: 'p' :: ':' :: '/' :: '/' :: u), []) := by
    simp [urlStep, matchProto, httpProto, httpsProto, List.isPrefixOf, htw, hne]
  have hskipC : ∀ i, i < (['_', '_', 'L', 'I', 'N', 'K', '_', 'M', 'A', 'R', 'K', 'E', 'R',
      '_', '0', '_', '_'] ++ [' ']).length →
      urlStep ((['_', '_', 'L', 'I', 'N', 'K', '_', 'M', 'A', 'R', 'K', 'E', 'R',
        '_', '0', '_', '_'] ++ [' ']).drop i ++
          ('h' :: 't' :: 't' :: 'p' :: ':' :: '/' :: '/' :: u)) = none :=
    step_none_at_append urlStep 'h' urlStep_head_none (by decide) _
  have hC := scanSub_skip_match urlStep
    (['_', '_', 'L', 'I', 'N', 'K', '_', 'M', 'A', 'R', 'K', 'E', 'R', '_', '0', '_', '_'] ++ [' '])
    hskipC hurl (fun i hi => absurd hi (by simp))
  have hstepD : replaceStep
      (['_', '_', 'L', 'I', 'N', 'K', '_', 'M', 'A', 'R', 'K', 'E', 'R', '_', '0', '_', '_'])
      (['<', 'a', ' ', 'h', 'r', 'e', 'f', '=', '"', 'h', 't', 't', 'p', ':', '/', '/',
        'a', '.', 'c', 'o', 'm', '"', '>', 't', '<', '/', 'a', '>'])
      (['_', '_', 'L', 'I', 'N', 'K', '_', 'M', 'A', 'R', 'K', 'E', 'R', '_', '0', '_', '_'] ++
        (' ' :: mkALink ('h' :: 't' :: 't' :: 'p' :: ':' :: '/' :: '/' :: u)
          ('h' :: 't' :: 't' :: 'p' :: ':' :: '/' :: '/' :: u))) =
      some (['<', 'a', ' ', 'h', 'r', 'e', 'f', '=', '"', 'h', 't', 't', 'p', ':', '/', '/',
        'a', '.', 'c', 'o', 'm', '"', '>', 't', '<', '/', 'a', '>'],
        ' ' :: mkALink ('h' :: 't' :: 't' :: 'p' :: ':' :: '/' :: '/' :: u)
          ('h' :: 't' :: 't' :: 'p' :: ':' :: '/' :: '/' :: u)) := by
    simp [replaceStep, List.isPrefixOf]
  have hnoUs : '_' ∉ (' ' :: mkALink ('h' :: 't' :: 't' :: 'p' :: ':' :: '/' :: '/' :: u)
      ('h' :: 't' :: 't' :: 'p' :: ':' :: '/' :: '/' :: u)) := by
    simp [mkALink, aOpen, aMid, aClose, hus]
  have hD : pyReplace
      (['_', '_', 'L', 'I', 'N', 'K', '_', 'M', 'A', 'R', 'K', 'E', 'R', '_', '0', '_', '_'] ++
        (' ' :: mkALink ('h' :: 't' :: 't' :: 'p' :: ':' :: '/' :: '/' :: u)
          ('h' :: 't' :: 't' :: 'p' :: ':' :: '/' :: '/' :: u)))
      (['_', '_', 'L', 'I', 'N', 'K', '_', 'M', 'A', 'R', 'K', 'E', 'R', '_', '0', '_', '_'])
      (['<', 'a', ' ', 'h', 'r', 'e', 'f', '=', '"', 'h', 't', 't', 'p', ':', '/', '/',
        'a', '.', 'c', 'o', 'm', '"', '>', 't', '<', '/', 'a', '>']) =
      ['<', 'a', ' ', 'h', 'r', 'e', 'f', '=', '"', 'h', 't', 't', 'p', ':', '/', '/',
        'a', '.', 'c', 'o', 'm', '"', '>', 't', '<', '/', 'a', '>'] ++
        (' ' :: mkALink ('h' :: 't' :: 't' :: 'p' :: ':' :: '/' :: '/' :: u)
          ('h' :: 't' :: 't' :: 'p' :: ':' :: '/' :: '/' :: u)) := by
    rw [pyReplace]
    exact scanSub_cons_of_none _ hstepD
      (step_none_at_drops _ '_' (fun c t hc => replaceStep_head_none '_' _ _ c t hc) hnoUs)
  -- assembly
  rw [linkifyUrls, hfindall, maskLinks_one, unmaskLinks_one, hmarker]
  rw [hB]
  rw [show (['_', '_', 'L', 'I', 'N', 'K', '_', 'M', 'A', 'R', 'K', 'E', 'R', '_', '0', '_', '_'] ++
      (' ' :: ('h' :: 't' :: 't' :: 'p' :: ':' :: '/' :: '/' :: u))) =
    (['_', '_', 'L', 'I', 'N', 'K', '_', 'M', 'A', 'R', 'K', 'E', 'R', '_', '0', '_', '_'] ++
      [' ']) ++ ('h' :: 't' :: 't' :: 'p' :: ':' :: '/' :: '/' :: u) by simp]
  rw [hC]
  rw [show ((['_', '_', 'L', 'I', 'N', 'K', '_', 'M', 'A', 'R', 'K', 'E', 'R', '_', '0', '_', '_'] ++
      [' ']) ++ (mkALink ('h' :: 't' :: 't' :: 'p' :: ':' :: '/' :: '/' :: u)
        ('h' :: 't' :: 't' :: 'p' :: ':' :: '/' :: '/' :: u) ++ [])) =
    (['_', '_', 'L', 'I', 'N', 'K', '_', 'M', 'A', 'R', 'K', 'E', 'R', '_', '0', '_', '_'] ++
      (' ' :: mkALink ('h' :: 't' :: 't' :: 'p' :: ':' :: '/' :: '/' :: u)
        ('h' :: 't' :: 't' :: 'p' :: ':' :: '/' :: '/' :: u))) by simp]
  rw [hD]


/-- Witness for C6 amended at the URL tail `xy`: the document
`<a href="http://a.com">t</a> http://xy` keeps its generated link intact
and gains exactly one new link wrapping the bare URL. -/
theorem c6_linkify_masked_url_exactly_once_witness :
    linkifyUrls
        (mkALink ['t'] (NotePoster.httpProto ++ ['a', '.', 'c', 'o', 'm']) ++
          ' ' :: (NotePoster.httpProto ++ ['x', 'y'])) =
      mkALink ['t'] (NotePoster.httpProto ++ ['a', '.', 'c', 'o', 'm']) ++
        ' ' :: mkALink (NotePoster.httpProto ++ ['x', 'y'])
          (NotePoster.httpProto ++ ['x', 'y']) :=
  c6_linkify_masked_url_exactly_once ['x', 'y'] (by decide) (by decide)

end C6Amended
end Claims
